import Mathlib

/-!
Verification development for the casanode node-configuration and wallet
lifecycle manager (`src/app/src/utils/node.ts`).

File contents are modelled as `List Char`.  The JavaScript regular
expressions used by the source are embedded as deterministic scanning
functions; each scanner's doc comment names the regex it implements and
resolves that regex's (deterministic) backtracking explicitly.  External
collaborators (container runtime, container CLI, passphrase-error
classifier, key-ring directory) are parameters, matching the interface
boundary in the design (spec sec. 6).
-/

set_option maxRecDepth 100000

namespace Casanode

/-- File contents and string values are lists of characters. -/
abbrev Str := List Char

/-- Coerce a Lean string literal to the `List Char` representation. -/
def str (s : String) : Str := s.data

/-- JavaScript `\s` (ASCII range: space, tab, newline, carriage return,
vertical tab, form feed). -/
def isWs (c : Char) : Bool :=
  c = ' ' || c = '\t' || c = '\n' || c = '\x0d' || c = '\x0b' || c = '\x0c'

/-- JavaScript line terminators relevant to multiline `^`/`$` and to `.`
(ASCII range: newline and carriage return). -/
def isTerm (c : Char) : Bool :=
  c = '\n' || c = '\x0d'

/-- JavaScript `\w`: ASCII letters, digits and underscore. -/
def isWordChar (c : Char) : Bool :=
  ('a' ≤ c && c ≤ 'z') || ('A' ≤ c && c ≤ 'Z') || ('0' ≤ c && c ≤ '9') || c = '_'

/-- ASCII letter (the `[a-z]` class under the `i` flag). -/
def isAsciiLetter (c : Char) : Bool :=
  ('a' ≤ c && c ≤ 'z') || ('A' ≤ c && c ≤ 'Z')

/-- ASCII digit. -/
def isDigitC (c : Char) : Bool :=
  '0' ≤ c && c ≤ '9'

/-- ASCII lower-casing, for the case-insensitive (`i`) regex flag and
`toLowerCase()`. -/
def lowerC (c : Char) : Char :=
  if 'A' ≤ c && c ≤ 'Z' then Char.ofNat (c.toNat + 32) else c

/-- Case-insensitive character comparison. -/
def ciEq (a b : Char) : Bool := lowerC a = lowerC b

/-- Case-insensitive literal prefix test. -/
def ciPrefix : Str → Str → Bool
  | [], _ => true
  | _ :: _, [] => false
  | p :: ps, c :: cs => ciEq p c && ciPrefix ps cs

/-- JavaScript `String.prototype.trim` (ASCII whitespace). -/
def trimJS (l : Str) : Str :=
  ((l.dropWhile isWs).reverse.dropWhile isWs).reverse

/-- Leftmost occurrence of `pat` in a string, returned as the split
(before, after): `hay = before ++ pat ++ after` with `before` minimal.
This is the semantics of matching a literal pattern (`indexOf` /
an unanchored literal regex). -/
def findSubSplit (pat : Str) : Str → Option (Str × Str)
  | [] => if pat = [] then some ([], []) else none
  | c :: cs =>
    if pat.isPrefixOf (c :: cs) then some ([], (c :: cs).drop pat.length)
    else (findSubSplit pat cs).map (fun p => (c :: p.1, p.2))

/-- JavaScript `String.prototype.includes`. -/
def containsSub (hay pat : Str) : Bool :=
  (findSubSplit pat hay).isSome

/-- JavaScript `split(sep)` for a single-character separator (keeps empty
segments, `'' -> ['']`). -/
def splitOnC (sep : Char) : Str → List Str
  | [] => [[]]
  | c :: cs =>
    let r := splitOnC sep cs
    if c = sep then [] :: r
    else match r with
      | t :: ts => (c :: t) :: ts
      | [] => [[c]]

/-- JavaScript `split(/\s+/)`: splits on maximal whitespace runs.  The
source always trims before splitting; on trimmed input this is exact
including the `'' -> ['']` corner case. -/
def splitWsJS : Str → List Str
  | [] => [[]]
  | c :: cs =>
    let r := splitWsJS cs
    if isWs c then
      match r with
      | [] :: _ => r
      | _ => [] :: r
    else match r with
      | t :: ts => (c :: t) :: ts
      | [] => [[c]]

/-- JavaScript `parseInt(v, 10)`: skip leading whitespace, optional sign,
then a nonempty run of decimal digits (trailing junk ignored); `none` is
`NaN`. -/
def parseIntJS (l : Str) : Option Int :=
  let l1 := l.dropWhile isWs
  let (neg, l2) : Bool × Str :=
    match l1 with
    | '-' :: r => (true, r)
    | '+' :: r => (false, r)
    | r => (false, r)
  let ds := l2.takeWhile isDigitC
  if ds = [] then none
  else
    let n : Nat := ds.foldl (fun a c => a * 10 + (c.toNat - '0'.toNat)) 0
    some (if neg then -(n : Int) else (n : Int))

/-- Decimal rendering of a natural number (JS number-to-string for the
integers the source writes). -/
def natToStr (n : Nat) : Str :=
  (Nat.toDigits 10 n)

/-- Decimal rendering of an integer. -/
def intToStr (i : Int) : Str :=
  if i < 0 then '-' :: natToStr i.natAbs else natToStr i.toNat

/-- JavaScript `[...new Set(xs)]`: de-duplication keeping first
occurrences in order. -/
def jsSetDedup (l : List Str) : List Str :=
  l.foldl (fun acc x => if x ∈ acc then acc else acc ++ [x]) []

/-- JavaScript `Array.prototype.join(sep)`. -/
def joinSep (sep : Str) : List Str → Str
  | [] => []
  | [x] => x
  | x :: xs => x ++ sep ++ joinSep sep xs

/-! ## ConfigStore: key extraction and in-place rewriting

The source works with two key regexes, both applied in multiline mode:

* extraction: `^\s*KEY\s*=\s*(.+)$`
* update:     `^\s*KEY\s*=.*$`

Both are embedded as scans over the line starts of the content, trying
the anchored body at each line start from left to right (the leftmost
match wins, as in `String.match` / `String.replace`).  Within one
attempt every quantifier is forced: the literal key and `=` begin with
non-whitespace characters, so each greedy `\s*` consumes exactly the
maximal whitespace run (the embedding accordingly assumes keys begin
with a non-whitespace character, which holds for every key the
repository uses).  The only residual backtracking is `\s*(.+)$` when the
whitespace run after `=` reaches the end of the content; the regex then
gives back the last character of the run that is not a line terminator,
which becomes the whole capture. -/

/-- Anchored body of `^\s*KEY\s*=\s*(.+)$` at one line start; returns the
capture group. -/
def attemptExtract (key : Str) (l : Str) : Option Str :=
  let r1 := l.dropWhile isWs
  if key.isPrefixOf r1 then
    let r2 := r1.drop key.length
    let r3 := r2.dropWhile isWs
    match r3 with
    | '=' :: r4 =>
      let w3 := r4.takeWhile isWs
      let r5 := r4.dropWhile isWs
      if r5 ≠ [] then some (r5.takeWhile (fun c => ¬ isTerm c))
      else
        match w3.reverse.dropWhile isTerm with
        | [] => none
        | c :: _ => some [c]
    | _ => none
  else none

/-- Scan all line starts (position 0 and every position following a line
terminator), leftmost match first, applying `attemptExtract`. -/
def scanKeyAux (key : Str) (atStart : Bool) : Str → Option Str
  | [] => none
  | c :: cs =>
    match (if atStart then attemptExtract key (c :: cs) else none) with
    | some v => some v
    | none => scanKeyAux key (isTerm c) cs

/-- Surrounding-quote stripping used by `cleanTomlValue` and
`stripQuotes` (both have the same body in the source). -/
def cleanTomlValue (value : Str) : Str :=
  let t := trimJS value
  if (t.head? = some '"' && t.getLast? = some '"')
      || (t.head? = some '\x27' && t.getLast? = some '\x27') then
    (t.drop 1).dropLast
  else t

/-- Alias kept to mirror the source, which defines `stripQuotes`
separately with an identical body. -/
def stripQuotes (value : Str) : Str := cleanTomlValue value

/-- `extractConfigValue(content, key)`: first multiline match of
`^\s*KEY\s*=\s*(.+)$`, cleaned; empty string when absent. -/
def extractConfigValue (content key : Str) : Str :=
  match scanKeyAux key true content with
  | some v => cleanTomlValue v
  | none => []

/-- Key extraction applied to an already-isolated section block (the
second half of `extractConfigValueInSection`). -/
def extractSectionBody (block key : Str) : Str :=
  match scanKeyAux key true block with
  | some v => cleanTomlValue v
  | none => []

/-- The lazily-matched section block of
`\[SECTION\]([\s\S]*?)(?=\r?\n\[|$)` (no multiline flag, so the `$`
alternative is end of input): everything after the header up to the
first `"\n["` or `"\r\n["`, or the end of the content. -/
def sectionBlockNoM : Str → Str
  | [] => []
  | c :: cs =>
    if (str "\n[").isPrefixOf (c :: cs) || (str "\x0d\n[").isPrefixOf (c :: cs) then []
    else c :: sectionBlockNoM cs

/-- The section header literal `[SECTION]`. -/
def secHeader (section_ : Str) : Str :=
  '[' :: section_ ++ [']']

/-- `extractConfigValueInSection(content, section, key)`. -/
def extractConfigValueInSection (content section_ key : Str) : Str :=
  match findSubSplit (secHeader section_) content with
  | none => []
  | some (_, after) => extractSectionBody (sectionBlockNoM after) key

/-! ## ConfigStore: value formatting and updates -/

/-- The values the source passes to the config writers
(`string | number | boolean`). -/
inductive TomlValue where
  | strV (s : Str)
  | numV (i : Int)
  | boolV (b : Bool)
deriving DecidableEq

/-- `formatTomlValue(value, quote)`: numbers/booleans are rendered
unquoted (this case wins even when `quote` is given); `quote: false`
passes the raw string; `quote: true` wraps in double quotes; by default
strings already starting with `[` or `{` pass through raw and other
strings are quoted. -/
def formatTomlValue (value : TomlValue) (quote : Option Bool) : Str :=
  match value with
  | .numV i => intToStr i
  | .boolV b => if b then str "true" else str "false"
  | .strV s =>
    match quote with
    | some false => s
    | some true => '"' :: s ++ ['"']
    | none =>
      let t := trimJS s
      if t.head? = some '[' || t.head? = some '\x7b' then s
      else '"' :: s ++ ['"']

/-- Anchored body of the update regex `^\s*KEY\s*=.*$` at one line start;
returns the length of the whole match (`.*` runs to the line end). -/
def attemptUpdLen (key : Str) (l : Str) : Option Nat :=
  let w1 := l.takeWhile isWs
  let r1 := l.dropWhile isWs
  if key.isPrefixOf r1 then
    let r2 := r1.drop key.length
    let w2 := r2.takeWhile isWs
    let r3 := r2.dropWhile isWs
    match r3 with
    | '=' :: r4 =>
      some (w1.length + key.length + w2.length + 1 + (r4.takeWhile (fun c => ¬ isTerm c)).length)
    | _ => none
  else none

/-- Leftmost multiline match of `^\s*KEY\s*=.*$`, returned as the split
(before, after) around the matched region. -/
def scanUpdAux (key : Str) (atStart : Bool) : Str → Option (Str × Str)
  | [] => none
  | c :: cs =>
    match (if atStart then attemptUpdLen key (c :: cs) else none) with
    | some n => some ([], (c :: cs).drop n)
    | none =>
      (scanUpdAux key (isTerm c) cs).map (fun p => (c :: p.1, p.2))

/-- `updateConfigValue(filePath, key, value, options)` on the file's
content: if the update regex does not match, the content is returned
unchanged (deliberate no-op on miss, and no error); otherwise the first
matched region is replaced by `KEY = FORMATTED`. -/
def updateConfigValue (content key : Str) (value : TomlValue) (quote : Option Bool) : Str :=
  match scanUpdAux key true content with
  | none => content
  | some (before, after) => before ++ key ++ str " = " ++ formatTomlValue value quote ++ after

/-- The lazily-matched group of `(\[SECTION\][\s\S]*?)(?=\n\[|$)` with
the multiline flag: under `m`, the `$` alternative of the lookahead
matches before every line terminator, so the lazy body stops at the
first newline or carriage return after the header.  The captured
"section" is therefore the header plus the remainder of the header's own
line only. -/
def sectionContentM (section_ after : Str) : Str :=
  secHeader section_ ++ after.takeWhile (fun c => ¬ isTerm c)

/-- `updateConfigValueInSection(filePath, section, key, value, options)`
on the file's content: locate the first (multiline, lazy) section match,
test the key regex inside it, and splice the rewritten section back; a
miss of section or key leaves the content unchanged. -/
def updateConfigValueInSection (content section_ key : Str) (value : TomlValue)
    (quote : Option Bool) : Str :=
  match findSubSplit (secHeader section_) content with
  | none => content
  | some (before, after) =>
    let sec := sectionContentM section_ after
    match scanUpdAux key true sec with
    | none => content
    | some (b, a) =>
      let updatedSection := b ++ key ++ str " = " ++ formatTomlValue value quote ++ a
      before ++ updatedSection ++ after.drop (after.takeWhile (fun c => ¬ isTerm c)).length

/-! ## NodeConfigModel: data, defaults and parse helpers -/

/-- `DATACENTER_GIGABYTE_PRICES` constant. -/
def DATACENTER_GIGABYTE_PRICES : Str := str "udvpn:0.0025,12_500_000"

/-- `DATACENTER_HOURLY_PRICES` constant. -/
def DATACENTER_HOURLY_PRICES : Str := str "udvpn:0.005,25_000_000"

/-- `RESIDENTIAL_GIGABYTE_PRICES` constant. -/
def RESIDENTIAL_GIGABYTE_PRICES : Str := str "udvpn:0.0025,12_500_000"

/-- `RESIDENTIAL_HOURLY_PRICES` constant. -/
def RESIDENTIAL_HOURLY_PRICES : Str := str "udvpn:0.005,25_000_000"

/-- `DEFAULT_CHAIN_ID` constant. -/
def DEFAULT_CHAIN_ID : Str := str "sentinelhub-2"

/-- `DEFAULT_RPC_ADDRESSES` constant. -/
def DEFAULT_RPC_ADDRESSES : List Str :=
  [str "https://rpc.sentineldao.com:443",
   str "https://rpc-sentinel.busurnode.com:443",
   str "https://sentinel-rpc.publicnode.com:443"]

/-- The in-memory `NodeConfigData` record.  `vpn_protocol` is
`string | undefined` in the source and is modelled as `Option Str`;
numeric fields are integers. -/
structure NodeConfig where
  moniker : Str
  chain_id : Str
  rpc_addresses : Str
  node_ip : Str
  node_ipv6 : Str
  vpn_type : Str
  vpn_protocol : Option Str
  node_port : Int
  vpn_port : Int
  backend : Str
  handshake : Bool
  wallet_name : Str
  max_peers : Int
  gas : Str
  gas_adjustment : Str
  gas_prices : Str
  node_type : Str
  gigabyte_prices : Str
  hourly_prices : Str
  walletPublicAddress : Str
  walletNodeAddress : Str
  walletPassphrase : Str
  walletMnemonic : List Str
  nodeLocation : Str
  systemUptime : Int
  systemOs : Str
  systemKernel : Str
  systemArch : Str
  casanodeVersion : Str
deriving DecidableEq

/-- `defaultNodeConfig`, the built-in defaults. -/
def defaultNodeConfig : NodeConfig where
  moniker := []
  node_type := []
  chain_id := DEFAULT_CHAIN_ID
  rpc_addresses := joinSep (str ",") DEFAULT_RPC_ADDRESSES
  node_ip := []
  node_ipv6 := []
  vpn_type := str "wireguard"
  vpn_protocol := some (str "udp")
  node_port := 0
  vpn_port := 0
  backend := str "test"
  handshake := true
  wallet_name := str "operator"
  max_peers := 250
  gas := str "200000"
  gas_adjustment := str "1.05"
  gas_prices := str "0.2udvpn"
  gigabyte_prices := []
  hourly_prices := []
  walletPublicAddress := []
  walletNodeAddress := []
  walletPassphrase := []
  walletMnemonic := []
  nodeLocation := []
  systemUptime := 0
  systemOs := []
  systemKernel := []
  systemArch := []
  casanodeVersion := str "1.0.0"

/-- The configuration files the manager touches: the main
`config.toml` plus the three protocol sub-configs.  `none` models an
absent file (whose `readFileSync` would throw). -/
structure FS where
  mainConfig : Option Str
  wireguardConfig : Option Str
  v2rayConfig : Option Str
  openvpnConfig : Option Str
deriving DecidableEq

/-- `extractFirstListItem(value)`. -/
def extractFirstListItem (value : Str) : Str :=
  if value = [] then []
  else
    let n := trimJS value
    let n := if n.head? = some '[' && n.getLast? = some ']' then trimJS ((n.drop 1).dropLast) else n
    let n := match findSubSplit [','] n with
      | some (before, _) => before
      | none => n
    stripQuotes (trimJS n)

/-- `normalizeAddress(value)`. -/
def normalizeAddress (value : Str) : Str :=
  trimJS (stripQuotes value)

/-- `extractHost(address)`: strip a `[...]` bracket pair, or a single
`:port` suffix whose (trimmed) port is all digits. -/
def extractHost (address : Str) : Str :=
  let n := trimJS address
  if n = [] then []
  else if n.head? = some '[' then
    match findSubSplit [']'] n with
    | some (before, _) => if before.length > 0 then before.drop 1 else n
    | none => n
  else
    match splitOnC ':' n with
    | [before, after] =>
      let portCandidate := trimJS after
      if portCandidate ≠ [] && portCandidate.all (fun c => isDigitC c) then before else n
    | _ => n

/-- `isIPv6Address(address)`: contains a colon and does not contain the
IPv4-mapped prefix `::ffff:`. -/
def isIPv6Address (address : Str) : Bool :=
  containsSub address [':'] && ¬ containsSub address (str "::ffff:")

/-- `parseBoolean(value)`. -/
def parseBoolean (value : Str) : Bool :=
  if value = [] then false
  else
    let n := (trimJS value).map lowerC
    n = str "true" || n = str "1" || n = str "yes" || n = str "on"

/-- `parsePortValue(value)`: last `:`-separated segment, trimmed; must be
a nonempty digit run. -/
def parsePortValue (value : Str) : Option Int :=
  let n := trimJS (stripQuotes value)
  if n = [] then none
  else
    let segs := splitOnC ':' n
    let lastSegment := trimJS ((segs.getLast?).getD [])
    if lastSegment ≠ [] && lastSegment.all (fun c => isDigitC c) then
      parseIntJS lastSegment
    else none

/-- `parseTomlArray(value)`. -/
def parseTomlArray (value : Str) : List Str :=
  if value = [] then []
  else
    let n := trimJS value
    let n := if n.head? = some '[' && n.getLast? = some ']' then (n.drop 1).dropLast else n
    ((splitOnC ',' n).map (fun item => stripQuotes (trimJS item))).filter (fun item => item ≠ [])

/-- Result of `parseEndpoint`: the `ip` member is `[]` when absent or
empty (both are falsy at the single use site), `port` is `undefined` or
a finite integer. -/
structure EndpointParse where
  ip : Str := []
  port : Option Int := none
deriving DecidableEq

/-- `parseEndpoint(entry)`: bracketed IPv6 literal with optional
`:port`; else a bare digit run is a port; else a single-colon token
splits as `ip:port`; else the whole token is an ip.  With no `]` the
source's `slice(1, -1)` drops the first and last characters. -/
def parseEndpoint (entry : Str) : EndpointParse :=
  if entry = [] then {}
  else
    let cleaned := stripQuotes entry
    if cleaned = [] then {}
    else if cleaned.head? = some '[' then
      match findSubSplit [']'] cleaned with
      | some (before, after) =>
        { ip := before.drop 1
          port := if after.head? = some ':' then parseIntJS (after.drop 1) else none }
      | none => { ip := (cleaned.drop 1).dropLast }
    else if cleaned.all (fun c => isDigitC c) then
      { port := parseIntJS cleaned }
    else
      match splitOnC ':' cleaned with
      | [before, after] => { ip := before, port := parseIntJS after }
      | _ => { ip := cleaned }

/-- Truthiness of the `vpn_protocol` field (`undefined` and `''` are
falsy). -/
def falsyProto : Option Str → Bool
  | none => true
  | some s => s = []

/-- `loadVpnConfig()`: protocol and port from the sub-config backing the
current `vpn_type`. -/
def loadVpnConfig (cfg : NodeConfig) (fs : FS) : NodeConfig :=
  if cfg.vpn_type = str "wireguard" then
    let cfg := { cfg with vpn_protocol := some (str "udp") }
    match fs.wireguardConfig with
    | some content =>
      let portValue := extractConfigValue content (str "port")
      match (if portValue ≠ [] then parsePortValue portValue else none) with
      | some p => { cfg with vpn_port := p }
      | none => cfg
    | none => cfg
  else if cfg.vpn_type = str "v2ray" then
    let cfg := { cfg with vpn_protocol := some (str "tcp") }
    match fs.v2rayConfig with
    | some content =>
      let portValue := extractConfigValue content (str "port")
      match (if portValue ≠ [] then parsePortValue portValue else none) with
      | some p => { cfg with vpn_port := p }
      | none => cfg
    | none => cfg
  else if cfg.vpn_type = str "openvpn" then
    match fs.openvpnConfig with
    | some content =>
      let portValue := extractConfigValue content (str "port")
      let cfg := match (if portValue ≠ [] then parsePortValue portValue else none) with
        | some p => { cfg with vpn_port := p }
        | none => cfg
      let protocolValue := extractConfigValue content (str "protocol")
      let normalized := if protocolValue ≠ [] then (trimJS (stripQuotes protocolValue)).map lowerC else []
      { cfg with vpn_protocol := some (if normalized = str "tcp" then str "tcp" else str "udp") }
    | none => { cfg with vpn_protocol := some (str "udp") }
  else
    if falsyProto cfg.vpn_protocol then { cfg with vpn_protocol := some (str "udp") } else cfg

/-- `loadNodeConfig` step: moniker and `service_type` from `[node]`. -/
def applyNodeBasics (cfg : NodeConfig) (content : Str) : NodeConfig :=
  let cfg := { cfg with moniker := extractConfigValueInSection content (str "node") (str "moniker") }
  let v := extractConfigValueInSection content (str "node") (str "service_type")
  { cfg with vpn_type := if v = [] then str "wireguard" else v }

/-- `loadNodeConfig` step: the `[node] api_port` endpoint. -/
def applyApiPort (cfg : NodeConfig) (content : Str) : NodeConfig :=
  let apiPortEntry := extractFirstListItem (extractConfigValueInSection content (str "node") (str "api_port"))
  let parsedApi := parseEndpoint apiPortEntry
  let cfg := match parsedApi.port with
    | some p => { cfg with node_port := p }
    | none => cfg
  if parsedApi.ip ≠ [] then { cfg with node_ip := parsedApi.ip } else cfg

/-- The host candidates derived from `[node] remote_addrs`. -/
def remoteHostCandidates (content : Str) : List Str :=
  let remoteAddrsRaw := extractConfigValueInSection content (str "node") (str "remote_addrs")
  let remoteAddrs := (parseTomlArray remoteAddrsRaw).map normalizeAddress
  (remoteAddrs.map extractHost).filter (fun a => a ≠ [])

/-- `loadNodeConfig` step: seed `node_ip` from the first host candidate
when unset or `0.0.0.0`, and `node_ipv6` from the first candidate
satisfying `isIPv6Address`. -/
def applyRemoteAddrs (cfg : NodeConfig) (content : Str) : NodeConfig :=
  match remoteHostCandidates content with
  | [] => cfg
  | c0 :: rest =>
    let cfg := if cfg.node_ip = [] || cfg.node_ip = str "0.0.0.0" then { cfg with node_ip := c0 } else cfg
    match (c0 :: rest).find? (fun a => isIPv6Address a) with
    | some v6 => { cfg with node_ipv6 := v6 }
    | none => cfg

/-- `loadNodeConfig` step: fall back to `0.0.0.0` when `node_ip` is
still empty or blank. -/
def applyIpDefault (cfg : NodeConfig) : NodeConfig :=
  if cfg.node_ip = [] || trimJS cfg.node_ip = [] then { cfg with node_ip := str "0.0.0.0" } else cfg

/-- `loadNodeConfig` step: `[rpc]` chain id and address list. -/
def applyRpc (cfg : NodeConfig) (content : Str) : NodeConfig :=
  let v := extractConfigValueInSection content (str "rpc") (str "chain_id")
  let cfg := { cfg with chain_id := if v = [] then DEFAULT_CHAIN_ID else v }
  let rpcAddrsRaw := extractConfigValueInSection content (str "rpc") (str "addrs")
  let rpcAddrsList := (parseTomlArray rpcAddrsRaw).map normalizeAddress
  if rpcAddrsList ≠ [] then { cfg with rpc_addresses := joinSep (str ",") rpcAddrsList }
  else if rpcAddrsRaw ≠ [] then { cfg with rpc_addresses := normalizeAddress rpcAddrsRaw }
  else { cfg with rpc_addresses := joinSep (str ",") DEFAULT_RPC_ADDRESSES }

/-- `loadNodeConfig` step: peers, backend, wallet name, handshake flag,
flat price keys and the derived `node_type`. -/
def applyMisc (cfg : NodeConfig) (content : Str) : NodeConfig :=
  let maxPeersValue := extractConfigValueInSection content (str "qos") (str "max_peers")
  let maxPeersParsed : Int :=
    match parseIntJS maxPeersValue with
    | some p => if p > 0 then p else 250
    | none => 250
  let cfg := { cfg with max_peers := maxPeersParsed }
  let b := extractConfigValueInSection content (str "keyring") (str "backend")
  let cfg := { cfg with backend := if b = [] then str "test" else b }
  let walletName := extractConfigValueInSection content (str "tx") (str "from_name")
  let cfg := { cfg with wallet_name := if walletName ≠ [] && trimJS walletName ≠ [] then walletName else str "operator" }
  let cfg := { cfg with handshake := parseBoolean (extractConfigValueInSection content (str "handshake_dns") (str "enable")) }
  let cfg := { cfg with
    gas := extractConfigValue content (str "gas")
    gas_adjustment := extractConfigValue content (str "gas_adjustment")
    gas_prices := extractConfigValue content (str "gas_prices")
    gigabyte_prices := extractConfigValue content (str "gigabyte_prices")
    hourly_prices := extractConfigValue content (str "hourly_prices") }
  { cfg with node_type :=
    if cfg.hourly_prices = DATACENTER_HOURLY_PRICES then str "datacenter"
    else if cfg.hourly_prices ≠ [] && trimJS cfg.hourly_prices ≠ [] then str "residential"
    else [] }

/-- `loadNodeConfig()`: no-op when the main config file is absent,
otherwise overwrite in-memory fields from disk and finish with
`loadVpnConfig`. -/
def loadNodeConfig (cfg : NodeConfig) (fs : FS) : NodeConfig :=
  match fs.mainConfig with
  | none => cfg
  | some content =>
    let cfg := applyNodeBasics cfg content
    let cfg := applyApiPort cfg content
    let cfg := applyRemoteAddrs cfg content
    let cfg := applyIpDefault cfg
    let cfg := applyRpc cfg content
    let cfg := applyMisc cfg content
    let cfg := { cfg with vpn_port := 0, vpn_protocol := none }
    loadVpnConfig cfg fs

/-! ## Remote and RPC address serialization -/

/-- `buildRemoteAddressesList()`: node ip (unless empty or `0.0.0.0`),
node ipv6 (unless empty or `::1`), falling back to `127.0.0.1`, passed
through `[...new Set(...)]`. -/
def buildRemoteAddressesList (cfg : NodeConfig) : List Str :=
  let addresses : List Str :=
    (if cfg.node_ip ≠ [] && cfg.node_ip ≠ str "0.0.0.0" then [cfg.node_ip] else [])
      ++ (if cfg.node_ipv6 ≠ [] && cfg.node_ipv6 ≠ str "::1" then [cfg.node_ipv6] else [])
  let addresses := if addresses = [] then [str "127.0.0.1"] else addresses
  jsSetDedup addresses

/-- Double-quote wrapping of one serialized array element. -/
def quoteElem (a : Str) : Str := '"' :: a ++ ['"']

/-- `formatRemoteAddresses(addresses)`. -/
def formatRemoteAddresses (addresses : List Str) : Str :=
  if addresses = [] then str "[\"127.0.0.1\"]"
  else '[' :: joinSep (str ", ") (addresses.map quoteElem) ++ [']']

/-- `getRpcAddresses()`: parse the in-memory comma-joined string as a
TOML array, falling back to a comma split that strips brackets and
quotes. -/
def getRpcAddresses (cfg : NodeConfig) : List Str :=
  let parsed := parseTomlArray cfg.rpc_addresses
  if parsed ≠ [] then parsed
  else
    (((splitOnC ',' cfg.rpc_addresses).map
        (fun addr => trimJS (addr.filter (fun c => ¬ (c = '[' || c = ']' || c = '"'))))).filter
      (fun addr => addr ≠ []))

/-- `formatRpcAddresses()`. -/
def formatRpcAddresses (cfg : NodeConfig) : Str :=
  let rpcAddresses := getRpcAddresses cfg
  if rpcAddresses = [] then str "[]"
  else '[' :: joinSep (str ", ") (rpcAddresses.map quoteElem) ++ [']']

/-- Serialization in TOML array syntax as the spec words it:
`["a", "b"]`. -/
def tomlArraySyntax (l : List Str) : Str :=
  '[' :: joinSep (str ", ") (l.map quoteElem) ++ [']']

/-! ## VpnTransitionCoordinator -/

/-- Observable external side effects of the transition: one node-init
invocation, and the three container lifecycle calls. -/
inductive CEvent where
  | nodeInit
  | containerStopEv
  | containerRemoveEv
  | containerStartEv
deriving DecidableEq

/-- External collaborators of the transition (spec sec. 6): container
existence and running state, and the node-init command's outcome
(`initSuccess = false` models `containerCommand` returning null) with
its effect on the config files. -/
structure VEnv where
  containerExists : Bool
  containerRunning : Bool
  initSuccess : Bool
  initEffect : FS → FS

/-- Result of `createVpnConfig`. -/
structure CRes where
  ok : Bool
  fs : FS
  events : List CEvent
  cfg : NodeConfig

/-- Result of `vpnChangeType`: `res = none` models an escaped exception
(a `readFileSync` on an absent file); the field values record the state
and emitted events up to that point. -/
structure VRes where
  res : Option Bool
  fs : FS
  events : List CEvent
  cfg : NodeConfig
deriving DecidableEq

/-- `createVpnConfig()`: for a valid `vpn_type`, succeed immediately if
the sub-config file exists; otherwise run the node-init command once and
reload the configuration on success.  An invalid type fails without
invoking node-init. -/
def createVpnConfig (cfg : NodeConfig) (fs : FS) (env : VEnv) : CRes :=
  if cfg.vpn_type = str "wireguard" then
    match fs.wireguardConfig with
    | some _ => ⟨true, fs, [], cfg⟩
    | none =>
      if env.initSuccess then
        let fs1 := env.initEffect fs
        ⟨true, fs1, [.nodeInit], loadNodeConfig cfg fs1⟩
      else ⟨false, fs, [.nodeInit], cfg⟩
  else if cfg.vpn_type = str "v2ray" then
    match fs.v2rayConfig with
    | some _ => ⟨true, fs, [], cfg⟩
    | none =>
      if env.initSuccess then
        let fs1 := env.initEffect fs
        ⟨true, fs1, [.nodeInit], loadNodeConfig cfg fs1⟩
      else ⟨false, fs, [.nodeInit], cfg⟩
  else if cfg.vpn_type = str "openvpn" then
    match fs.openvpnConfig with
    | some _ => ⟨true, fs, [], cfg⟩
    | none =>
      if env.initSuccess then
        let fs1 := env.initEffect fs
        ⟨true, fs1, [.nodeInit], loadNodeConfig cfg fs1⟩
      else ⟨false, fs, [.nodeInit], cfg⟩
  else ⟨false, fs, [], cfg⟩

/-- The container reconciliation tail of the change case: stop when
running, remove, restart when it had been running; nothing when the
container does not exist. -/
def containerReconcileEvents (env : VEnv) : List CEvent :=
  if env.containerExists then
    (if env.containerRunning then [CEvent.containerStopEv] else [])
      ++ [CEvent.containerRemoveEv]
      ++ (if env.containerRunning then [CEvent.containerStartEv] else [])
  else []

/-- Write the in-memory vpn port (and, for openvpn, a truthy protocol)
into the sub-config for `vpnType`; `none` when the target file is
absent (the source's `readFileSync` would throw).  Types other than the
three known ones write nothing. -/
def writeVpnPort (fs : FS) (vpnType : Str) (port : Int) (proto : Option Str) : Option FS :=
  if vpnType = str "wireguard" then
    match fs.wireguardConfig with
    | none => none
    | some c => some { fs with wireguardConfig := some (updateConfigValue c (str "port") (.numV port) (some true)) }
  else if vpnType = str "v2ray" then
    match fs.v2rayConfig with
    | none => none
    | some c => some { fs with v2rayConfig := some (updateConfigValue c (str "port") (.numV port) (some false)) }
  else if vpnType = str "openvpn" then
    match fs.openvpnConfig with
    | none => none
    | some c =>
      let c1 := updateConfigValue c (str "port") (.numV port) (some true)
      let c2 :=
        match proto with
        | some p => if p ≠ [] then updateConfigValue c1 (str "protocol") (.strV p) (some true) else c1
        | none => c1
      some { fs with openvpnConfig := some c2 }
  else some fs

/-- `vpnChangeType()`.  Reads the persisted `service_type`; in the no-op
case only the current sub-config's port (and openvpn protocol) is
rewritten; in the change case the main config keys are rewritten, the
new sub-config is ensured via `createVpnConfig`, the port is applied,
the model is reloaded, and the container is stopped/removed/restarted
when it exists. -/
def vpnChangeType (cfg : NodeConfig) (fs : FS) (env : VEnv) : VRes :=
  match fs.mainConfig with
  | none => ⟨none, fs, [], cfg⟩
  | some mc =>
    let current_vpn_type := extractConfigValueInSection mc (str "node") (str "service_type")
    let current_vpn_port := cfg.vpn_port
    if current_vpn_type = cfg.vpn_type then
      match writeVpnPort fs cfg.vpn_type current_vpn_port cfg.vpn_protocol with
      | none => ⟨none, fs, [], cfg⟩
      | some fs1 => ⟨some true, fs1, [], cfg⟩
    else
      let mc1 := updateConfigValueInSection mc (str "node") (str "service_type") (.strV cfg.vpn_type) none
      let mc2 := updateConfigValueInSection mc1 (str "handshake_dns") (str "enable")
        (.strV (if cfg.vpn_type = str "wireguard" then str "true" else str "false")) (some false)
      let fs1 : FS := { fs with mainConfig := some mc2 }
      let r := createVpnConfig cfg fs1 env
      if r.ok = false then ⟨some false, r.fs, r.events, r.cfg⟩
      else
        match writeVpnPort r.fs r.cfg.vpn_type current_vpn_port r.cfg.vpn_protocol with
        | none => ⟨none, r.fs, r.events, r.cfg⟩
        | some fs2 =>
          let cfg2 := loadNodeConfig r.cfg fs2
          ⟨some true, fs2, r.events ++ containerReconcileEvents env, cfg2⟩

/-- The tail of `vpnChangeType`'s change case, after the main-config
rewrites, as a function of the `createVpnConfig` outcome `r`: abort on
failure; apply the captured port (and current protocol) to the sub-config
of the now-current type; reload; reconcile the container. -/
def changeCaseResult (cfg : NodeConfig) (env : VEnv) (r : CRes) : VRes :=
  if r.ok = false then ⟨some false, r.fs, r.events, r.cfg⟩
  else
    match writeVpnPort r.fs r.cfg.vpn_type cfg.vpn_port r.cfg.vpn_protocol with
    | none => ⟨none, r.fs, r.events, r.cfg⟩
    | some fs2 =>
      ⟨some true, fs2, r.events ++ containerReconcileEvents env, loadNodeConfig r.cfg fs2⟩

/-- The openvpn rewrite applied by the no-op branch: the port, then a
truthy protocol. -/
def openvpnNoopRewrite (c : Str) (port : Int) (proto : Option Str) : Str :=
  match proto with
  | some p =>
    if p ≠ [] then
      updateConfigValue (updateConfigValue c (str "port") (.numV port) (some true))
        (str "protocol") (.strV p) (some true)
    else updateConfigValue c (str "port") (.numV port) (some true)
  | none => updateConfigValue c (str "port") (.numV port) (some true)

/-- The sub-config file backing a given vpn type (used to state
properties about the three protocol branches uniformly). -/
def subConfigOf (fs : FS) (t : Str) : Option Str :=
  if t = str "wireguard" then fs.wireguardConfig
  else if t = str "v2ray" then fs.v2rayConfig
  else if t = str "openvpn" then fs.openvpnConfig
  else none

/-- `setVpnType(vpnType)`: sets the type, derives the handshake flag,
and derives the protocol (wireguard is udp, v2ray is tcp, openvpn keeps
an already-set protocol and defaults to udp otherwise). -/
def setVpnType (cfg : NodeConfig) (vpnType : Str) : NodeConfig :=
  let cfg := { cfg with vpn_type := vpnType, handshake := decide (vpnType = str "wireguard") }
  if vpnType = str "wireguard" then { cfg with vpn_protocol := some (str "udp") }
  else if vpnType = str "v2ray" then { cfg with vpn_protocol := some (str "tcp") }
  else if vpnType = str "openvpn" && falsyProto cfg.vpn_protocol then { cfg with vpn_protocol := some (str "udp") }
  else cfg

/-! ## WalletManager: CLI output parsing

The CLI's raw text is scraped with a handful of regexes.  Each is
embedded as a leftmost-match scanner; the occasional word boundary `\b`
is tracked via the word-character status of the previous character. -/

/-- Global removal of ANSI escape sequences, `/\x1b\[[0-9;]*m/g`,
implemented as a character state machine: an `ESC [` followed by digits
and semicolons and a closing `m` is dropped; any incomplete sequence is
emitted verbatim (as the regex leaves unmatched text in place). -/
inductive AnsiState where
  | normal
  | sawEsc
  | inBody (buf : Str)

/-- One step of the ANSI stripper; `buf` holds the pending (reversed)
candidate sequence. -/
def ansiStep (s : AnsiState) (c : Char) : Str × AnsiState :=
  match s with
  | .normal => if c = '\x1b' then ([], .sawEsc) else ([c], .normal)
  | .sawEsc =>
    if c = '[' then ([], .inBody ['[', '\x1b'])
    else if c = '\x1b' then (['\x1b'], .sawEsc)
    else (['\x1b', c], .normal)
  | .inBody buf =>
    if isDigitC c || c = ';' then ([], .inBody (c :: buf))
    else if c = 'm' then ([], .normal)
    else if c = '\x1b' then (buf.reverse, .sawEsc)
    else (buf.reverse ++ [c], .normal)

/-- Emit whatever candidate sequence is still pending at end of input. -/
def ansiFlush : AnsiState → Str
  | .normal => []
  | .sawEsc => ['\x1b']
  | .inBody buf => buf.reverse

/-- Driver of the ANSI stripper. -/
def stripAnsiGo (s : AnsiState) : Str → Str
  | [] => ansiFlush s
  | c :: cs =>
    let p := ansiStep s c
    p.1 ++ stripAnsiGo p.2 cs

/-- `output.replace(/\x1b\[[0-9;]*m/g, '')`. -/
def stripAnsi (l : Str) : Str := stripAnsiGo .normal l

/-- Leftmost match of a pattern that needs no word boundary at its
start: try the anchored attempt at every position. -/
def scanAnyAux (attempt : Str → Option Str) : Str → Option Str
  | [] => none
  | c :: cs =>
    match attempt (c :: cs) with
    | some r => some r
    | none => scanAnyAux attempt cs

/-- Leftmost match of a `\b`-anchored pattern whose first character is a
word character: try the attempt only where the previous character is not
a word character. -/
def scanTokenAux (attempt : Str → Option Str) (prevWord : Bool) : Str → Option Str
  | [] => none
  | c :: cs =>
    match (if ¬ prevWord then attempt (c :: cs) else none) with
    | some r => some r
    | none => scanTokenAux attempt (isWordChar c) cs

/-- Anchored body of `\bsentnode\w+\b`: the literal, then at least one
word character; the trailing `\b` is automatic at the end of the greedy
word run. -/
def attemptSentnode (l : Str) : Option Str :=
  if (str "sentnode").isPrefixOf l then
    let w := (l.drop 8).takeWhile isWordChar
    if w ≠ [] then some (str "sentnode" ++ w) else none
  else none

/-- Anchored body of `\bsent(?!node)\w+\b` (used by
`walletLoadAddresses`). -/
def attemptBareSent (l : Str) : Option Str :=
  if (str "sent").isPrefixOf l && ¬ (str "node").isPrefixOf (l.drop 4) then
    let w := (l.drop 4).takeWhile isWordChar
    if w ≠ [] then some (str "sent" ++ w) else none
  else none

/-- The `\s*(sent\w+)` tail of the public-address regex of
`parseKeysAddOutput`; returns the capture (original casing). -/
def pubAddrTail (rest : Str) : Option Str :=
  let r := rest.dropWhile isWs
  if ciPrefix (str "sent") r then
    let w := (r.drop 4).takeWhile isWordChar
    if w ≠ [] then some (r.take 4 ++ w) else none
  else none

/-- Anchored body of `e?address:\s*(sent\w+)` with the `i` flag: the
greedy optional `e` is tried first and given back if the tail fails. -/
def attemptPubAddr (l : Str) : Option Str :=
  match (if ciPrefix (str "eaddress:") l then pubAddrTail (l.drop 9) else none) with
  | some r => some r
  | none => if ciPrefix (str "address:") l then pubAddrTail (l.drop 8) else none

/-- Anchored body of `address:\s*(sent[0-9a-z]+)` with the `i` flag
(the `walletLoadAddresses` variant: no optional `e`, no underscore in
the address charset). -/
def attemptAddrLine (l : Str) : Option Str :=
  if ciPrefix (str "address:") l then
    let r := (l.drop 8).dropWhile isWs
    if ciPrefix (str "sent") r then
      let w := (r.drop 4).takeWhile (fun c => isDigitC c || isAsciiLetter c)
      if w ≠ [] then some (r.take 4 ++ w) else none
    else none
  else none

/-- Anchored body of `mnemonic:\s*([^\n]+)` with the `i` flag.  When the
whitespace run after the colon reaches the end of the input, the greedy
`\s*` gives back the last character of the run that is not a newline,
which becomes the whole capture. -/
def attemptMnemonicLine (l : Str) : Option Str :=
  if ciPrefix (str "mnemonic:") l then
    let rest := l.drop 9
    let w := rest.takeWhile isWs
    let r := rest.dropWhile isWs
    if r ≠ [] then some (r.takeWhile (fun c => c ≠ '\n'))
    else
      match w.reverse.dropWhile (fun c => c = '\n') with
      | [] => none
      | c :: _ => some [c]
  else none

/-- The repetition `(?:[a-z]+(?:\s+|$)){n}` of the mnemonic fallback
regex (no multiline flag, so `$` is end of input).  Each repetition is a
maximal letter run followed by a maximal whitespace run or the end of
input; all quantifiers are forced because letters and whitespace are
disjoint.  Returns (matched text, rest). -/
def fallbackChain : Nat → Str → Option (Str × Str)
  | 0, l => some ([], l)
  | n + 1, l =>
    let w := l.takeWhile isAsciiLetter
    let r1 := l.dropWhile isAsciiLetter
    if w = [] then none
    else
      let s := r1.takeWhile isWs
      let r2 := r1.dropWhile isWs
      if s ≠ [] then (fallbackChain n r2).map (fun p => (w ++ s ++ p.1, p.2))
      else if r1 = [] then (fallbackChain n []).map (fun p => (w ++ p.1, p.2))
      else none

/-- Anchored body of the fallback `\b(?:[a-z]+(?:\s+|$)){24}\b` with the
`i` flag: 24 chained repetitions, then a word boundary. -/
def attemptFallback (l : Str) : Option Str :=
  match fallbackChain 24 l with
  | none => none
  | some (text, rest) =>
    let lastW := (text.getLast?.map isWordChar).getD false
    match rest with
    | [] => if lastW then some text else none
    | c :: _ => if lastW ≠ isWordChar c then some text else none

/-- The mnemonic word list of `parseKeysAddOutput`: prefer the explicit
`mnemonic:` line, else the 24-consecutive-word fallback scan; the match
is trimmed and split on whitespace. -/
def mnemonicWordsOf (cleanOutput : Str) : List Str :=
  match scanAnyAux attemptMnemonicLine cleanOutput with
  | some cap => splitWsJS (trimJS cap)
  | none =>
    match scanTokenAux attemptFallback false cleanOutput with
    | some m => splitWsJS (trimJS m)
    | none => []

/-- The record assembled by `parseKeysAddOutput`. -/
structure ParsedKeys where
  nodeAddress : Str
  publicAddress : Str
  mnemonicArray : List Str
deriving DecidableEq

/-- The node-address component of `parseKeysAddOutput`
(`\bsentnode\w+\b` on the ANSI-stripped output, empty when absent). -/
def nodeAddressOf (cleanOutput : Str) : Str :=
  (scanTokenAux attemptSentnode false cleanOutput).getD []

/-- The public-address component of `parseKeysAddOutput`
(`e?address:\s*(sent\w+)` with `i`, empty when absent). -/
def publicAddressOf (cleanOutput : Str) : Str :=
  (scanAnyAux attemptPubAddr cleanOutput).getD []

/-- `parseKeysAddOutput(output)`: strip ANSI sequences, extract node
address, public address and mnemonic; the record is returned only when a
public address was found, else null. -/
def parseKeysAddOutput (output : Str) : Option ParsedKeys :=
  let cleanOutput := stripAnsi output
  let nodeAddress := nodeAddressOf cleanOutput
  let publicAddress := publicAddressOf cleanOutput
  let mnemonicArray := mnemonicWordsOf cleanOutput
  if publicAddress ≠ [] then
    some ⟨nodeAddress, publicAddress, mnemonicArray⟩
  else none

/-! ## WalletManager: operations -/

/-- External collaborators of the wallet operations: the container CLI
(`containerCommand`, `none` = execution failure), the passphrase-error
classifier, and whether the key-ring directory holds an `.address` file
(spec sec. 6 / sec. 4.4). -/
structure WEnv where
  cmd : List Str → Option (List Str) → Option Str
  isPassErr : Str → Bool
  keyringHasAddressFile : Bool

/-- The tri-state `boolean | undefined` result. -/
inductive Tri where
  | yes
  | no
  | undef
deriving DecidableEq

/-- Result type of `walletCreate` (`string[] | null | undefined`). -/
inductive CreateResult where
  | words (m : List Str)
  | nullRes
  | undefRes
deriving DecidableEq

/-- `passphraseRequired()`: backend is exactly "file" and the key-ring
directory contains an `.address` file. -/
def passphraseRequired (cfg : NodeConfig) (env : WEnv) : Bool :=
  cfg.backend = str "file" && env.keyringHasAddressFile

/-- `isPassphraseValid(passphrase)`: fails only when a passphrase is
required and the given one is null or blank. -/
def isPassphraseValid (cfg : NodeConfig) (env : WEnv) (passphrase : Option Str) : Bool :=
  ¬ (passphraseRequired cfg env &&
      (passphrase.isNone || (passphrase.map (fun p => decide (trimJS p = []))).getD false))

/-- `getBackend()`. -/
def getBackend (cfg : NodeConfig) : Str :=
  if cfg.backend ≠ [] && trimJS cfg.backend ≠ [] then cfg.backend else str "test"

/-- `getWalletName()`. -/
def getWalletName (cfg : NodeConfig) : Str :=
  if cfg.wallet_name ≠ [] && trimJS cfg.wallet_name ≠ [] then cfg.wallet_name else str "operator"

/-- `buildStdinCommand(passphrase, passphraseRepeat, stdin)`. -/
def buildStdinCommand (passphrase : Option Str) (passphraseRepeat : Nat)
    (stdin : Option (List Str)) : Option (List Str) :=
  match passphrase with
  | none => stdin
  | some p => some ((stdin.getD []) ++ List.replicate passphraseRepeat p)

/-- Case-insensitive containment, for `/deleted|removed/i.test`. -/
def ciContains (hay pat : Str) : Bool :=
  containsSub (hay.map lowerC) (pat.map lowerC)

/-- `walletExists(passphrase)`. -/
def walletExists (cfg : NodeConfig) (env : WEnv) (passphrase : Option Str) : Tri :=
  if ¬ isPassphraseValid cfg env passphrase then .undef
  else
    let stdin := buildStdinCommand passphrase 1 none
    if trimJS cfg.wallet_name = [] then .undef
    else
      match env.cmd [str "keys", str "list", str "--keyring.backend", getBackend cfg] stdin with
      | none => .undef
      | some output =>
        if env.isPassErr output then .undef
        else if containsSub output cfg.wallet_name then .yes else .no

/-- `walletUnlock(passphrase)` (typed `Promise<boolean>` in the source:
a missing required passphrase returns false, not undefined). -/
def walletUnlock (cfg : NodeConfig) (env : WEnv) (passphrase : Option Str) : Bool :=
  if ¬ isPassphraseValid cfg env passphrase then false
  else
    let stdin := buildStdinCommand passphrase 1 none
    match env.cmd [str "keys", str "list", str "--keyring.backend", getBackend cfg] stdin with
    | none => false
    | some output => containsSub output (str "Name")

/-- `walletRemove(passphrase)`: no-op success when the wallet is absent;
deletion succeeds on empty output or a `/deleted|removed/i` match. -/
def walletRemove (cfg : NodeConfig) (env : WEnv) (passphrase : Option Str) : Tri × NodeConfig :=
  if ¬ isPassphraseValid cfg env passphrase then (.no, cfg)
  else
    match walletExists cfg env passphrase with
    | .undef => (.undef, cfg)
    | .no => (.yes, cfg)
    | .yes =>
      let walletName := getWalletName cfg
      let passRepeat := if passphraseRequired cfg env then 2 else 0
      let stdin := buildStdinCommand passphrase passRepeat (some [str "yes"])
      let cfg := { cfg with wallet_name := walletName }
      match env.cmd [str "keys", str "delete", str "--keyring.backend", getBackend cfg, walletName] stdin with
      | none => (.undef, cfg)
      | some output =>
        if env.isPassErr output then (.undef, cfg)
        else if output = [] || ciContains output (str "deleted") || ciContains output (str "removed") then
          (.yes, { cfg with walletPublicAddress := [], walletNodeAddress := [] })
        else (.no, cfg)

/-- `walletLoadAddresses(passphrase)`: parse the public and node
addresses out of `keys show` output (without ANSI stripping, as in the
source). -/
def walletLoadAddresses (cfg : NodeConfig) (env : WEnv) (passphrase : Option Str) : Tri × NodeConfig :=
  if ¬ isPassphraseValid cfg env passphrase then (.no, cfg)
  else
    match walletExists cfg env passphrase with
    | .undef => (.undef, cfg)
    | .no => (.no, { cfg with walletPublicAddress := [], walletNodeAddress := [] })
    | .yes =>
      let walletName := getWalletName cfg
      let cfg := { cfg with wallet_name := walletName }
      let backend := getBackend cfg
      let stdin := buildStdinCommand passphrase 1 none
      match env.cmd [str "keys", str "show", str "--keyring.backend", backend, walletName] stdin with
      | none => (.undef, cfg)
      | some output =>
        if env.isPassErr output then (.undef, cfg)
        else
          let publicMatch :=
            match scanAnyAux attemptAddrLine output with
            | some a => some a
            | none => scanTokenAux attemptBareSent false output
          let nodeMatch := scanTokenAux attemptSentnode false output
          let cfg := { cfg with
            walletPublicAddress := publicMatch.getD []
            walletNodeAddress := nodeMatch.getD [] }
          if cfg.walletPublicAddress = [] then (.no, cfg) else (.yes, cfg)

/-- The `keys add` argument vector of `walletCreate`/`walletRecover`. -/
def keysAddArgs (cfg : NodeConfig) : List Str :=
  [str "keys", str "add", str "--keyring.backend", getBackend cfg, getWalletName cfg]

/-- The stdin fed by `walletCreate`: two empty lines (the BIP39 prompt
answers), plus the passphrase twice when one is required. -/
def walletCreateStdin (cfg : NodeConfig) (env : WEnv) (passphrase : Option Str) : Option (List Str) :=
  buildStdinCommand passphrase (if passphraseRequired cfg env then 2 else 0) (some [[], []])

/-- `walletCreate(passphrase)`. -/
def walletCreate (cfg : NodeConfig) (env : WEnv) (passphrase : Option Str) : CreateResult × NodeConfig :=
  if ¬ isPassphraseValid cfg env passphrase then (.nullRes, cfg)
  else
    match walletExists cfg env passphrase with
    | .yes => (.nullRes, cfg)
    | _ =>
      match env.cmd (keysAddArgs cfg) (walletCreateStdin cfg env passphrase) with
      | none => (.undefRes, cfg)
      | some output =>
        if env.isPassErr output then (.undefRes, cfg)
        else
          match parseKeysAddOutput output with
          | some parsed =>
            if parsed.publicAddress ≠ [] && parsed.mnemonicArray.length = 24 then
              (.words parsed.mnemonicArray,
               { cfg with walletNodeAddress := parsed.nodeAddress, walletPublicAddress := parsed.publicAddress })
            else (.nullRes, cfg)
          | none => (.nullRes, cfg)

/-- `walletRecover(mnemonic, passphrase)` (array mnemonics are joined
with spaces before the call, so the parameter is the joined string). -/
def walletRecover (cfg : NodeConfig) (env : WEnv) (mnemonic : Str) (passphrase : Option Str) : Tri × NodeConfig :=
  if ¬ isPassphraseValid cfg env passphrase then (.no, cfg)
  else
    match walletExists cfg env passphrase with
    | .yes => (.no, cfg)
    | _ =>
      let passRepeat := if passphraseRequired cfg env then 2 else 0
      let baseInput : List Str :=
        [mnemonic, []] ++ (if ¬ passphraseRequired cfg env then [[], []] else [])
      let stdin := buildStdinCommand passphrase passRepeat (some baseInput)
      match env.cmd (keysAddArgs cfg) stdin with
      | none => (.undef, cfg)
      | some output =>
        if env.isPassErr output then (.undef, cfg)
        else
          match parseKeysAddOutput output with
          | some parsed =>
            if parsed.publicAddress ≠ [] then
              (.yes, { cfg with walletNodeAddress := parsed.nodeAddress, walletPublicAddress := parsed.publicAddress })
            else (.no, cfg)
          | none => (.no, cfg)

/-! ## Lemmas about the literal-pattern scanner -/

theorem findSubSplit_eq_append {pat : Str} :
    ∀ {l b a : Str}, findSubSplit pat l = some (b, a) → l = b ++ pat ++ a := by
  intro l
  induction l with
  | nil =>
    intro b a h
    by_cases hp : pat = []
    · subst hp
      simp only [findSubSplit, if_pos rfl, Option.some.injEq, Prod.mk.injEq] at h
      simp_all
    · simp [findSubSplit, hp] at h
  | cons c cs ih =>
    intro b a h
    by_cases hp : pat.isPrefixOf (c :: cs)
    · simp only [findSubSplit, if_pos hp, Option.some.injEq, Prod.mk.injEq] at h
      obtain ⟨hb, ha⟩ := h
      obtain ⟨t, ht⟩ := List.isPrefixOf_iff_prefix.mp hp
      subst hb
      rw [← ha, ← ht, List.nil_append, List.drop_left]
    · simp only [findSubSplit, if_neg hp, Option.map_eq_some'] at h
      obtain ⟨⟨b', a'⟩, hrec, hba⟩ := h
      have hb : b = c :: b' := (Prod.ext_iff.mp hba).1.symm
      have ha : a = a' := (Prod.ext_iff.mp hba).2.symm
      subst hb
      subst ha
      rw [List.cons_append, List.cons_append, ih hrec]

theorem infix_of_findSubSplit {pat l : Str} (h : (findSubSplit pat l).isSome) : pat <:+: l := by
  obtain ⟨⟨b, a⟩, hba⟩ := Option.isSome_iff_exists.mp h
  exact ⟨b, a, (findSubSplit_eq_append hba).symm⟩

theorem findSubSplit_isSome_of_sub {pat : Str} :
    ∀ {l : Str}, pat <:+: l → (findSubSplit pat l).isSome := by
  intro l
  induction l with
  | nil =>
    intro h
    rw [List.infix_nil.mp h]
    simp [findSubSplit]
  | cons c cs ih =>
    intro h
    rcases List.infix_cons_iff.mp h with hpre | hinf
    · have : pat.isPrefixOf (c :: cs) := List.isPrefixOf_iff_prefix.mpr hpre
      simp [findSubSplit, this]
    · by_cases hp : pat.isPrefixOf (c :: cs)
      · simp [findSubSplit, hp]
      · simpa [findSubSplit, hp, Option.isSome_map] using ih hinf

theorem findSubSplit_none_of_not_sub {pat l : Str} (h : ¬ pat <:+: l) :
    findSubSplit pat l = none := by
  cases hf : findSubSplit pat l with
  | none => rfl
  | some p => exact absurd (infix_of_findSubSplit (by rw [hf]; rfl)) h

theorem prefix_dropLast_of_length_lt {p L : Str} (ys : Str)
    (h : p <+: L ++ ys) (hl : p.length < L.length) : p <+: L.dropLast := by
  have h2 : p = (L ++ ys).take p.length := List.prefix_iff_eq_take.mp h
  have htake : p = L.take p.length := by
    conv_lhs => rw [h2]
    rw [List.take_append_of_le_length (Nat.le_of_lt hl)]
  rw [List.prefix_iff_eq_take, List.dropLast_eq_take, List.take_take,
    Nat.min_eq_left (Nat.le_sub_one_of_lt hl)]
  exact htake

theorem findSubSplit_at_junction {pat : Str} (hp : pat ≠ []) :
    ∀ {xs : Str} (ys : Str), ¬ pat <:+: (xs ++ pat).dropLast →
      findSubSplit pat (xs ++ pat ++ ys) = some (xs, ys) := by
  intro xs
  induction xs with
  | nil =>
    intro ys _
    obtain ⟨q, qs, rfl⟩ : ∃ q qs, pat = q :: qs := by
      cases pat with
      | nil => exact absurd rfl hp
      | cons q qs => exact ⟨q, qs, rfl⟩
    have hpre : (q :: qs).isPrefixOf (q :: (qs ++ ys)) = true :=
      List.isPrefixOf_iff_prefix.mpr (List.prefix_append (q :: qs) ys)
    simp only [List.nil_append, List.cons_append, findSubSplit, List.append_eq, hpre, if_true]
    rw [show q :: (qs ++ ys) = (q :: qs) ++ ys from rfl, List.drop_left]
  | cons c xs' ih =>
    intro ys h
    have hne : xs' ++ pat ≠ [] := by
      intro hcon
      exact hp (List.append_eq_nil.mp hcon).2
    have hnp : ¬ pat.isPrefixOf (c :: (xs' ++ pat ++ ys)) = true := by
      intro hcon
      apply h
      have hpre : pat <+: ((c :: xs') ++ pat) ++ ys := by
        simpa using List.isPrefixOf_iff_prefix.mp hcon
      have hlen : pat.length < ((c :: xs') ++ pat).length := by
        simp [List.length_append]
        omega
      exact (prefix_dropLast_of_length_lt ys hpre hlen).isInfix
    have h' : ¬ pat <:+: (xs' ++ pat).dropLast := by
      intro hcon
      apply h
      rw [List.cons_append, List.dropLast_cons_of_ne_nil hne]
      exact List.infix_cons hcon
    have hrec := ih ys h'
    simp only [List.cons_append, findSubSplit, List.append_eq]
    rw [if_neg hnp, hrec]
    rfl

/-! ## Lemmas about the section-block and key-update scanners -/

theorem sectionBlock_at_junction :
    ∀ {mid : Str} (tl : Str), '\x0d' ∉ mid → ¬ (str "\n[") <:+: (mid ++ ['\n']) →
      sectionBlockNoM (mid ++ '\n' :: '[' :: tl) = mid := by
  intro mid
  induction mid with
  | nil =>
    intro tl _ _
    have : (str "\n[").isPrefixOf ('\n' :: '[' :: tl) := by
      show List.isPrefixOf ['\n', '['] _
      simp [List.isPrefixOf]
    simp [sectionBlockNoM, this]
  | cons c mid' ih =>
    intro tl hR hN
    have hR' : '\x0d' ∉ mid' := fun hc => hR (List.mem_cons_of_mem _ hc)
    have hN' : ¬ (str "\n[") <:+: (mid' ++ ['\n']) := by
      intro hcon
      exact hN (List.infix_cons hcon)
    have hc1 : (str "\n[").isPrefixOf (c :: (mid' ++ '\n' :: '[' :: tl)) = false := by
      apply Bool.eq_false_iff.mpr
      show ¬ List.isPrefixOf ['\n', '['] _ = true
      intro hcon
      simp only [List.isPrefixOf, Bool.and_eq_true, beq_iff_eq] at hcon
      obtain ⟨hc, htail⟩ := hcon
      cases mid' with
      | nil => simp [List.isPrefixOf] at htail
      | cons d mid'' =>
        simp only [List.cons_append, List.isPrefixOf, Bool.and_eq_true, beq_iff_eq] at htail
        obtain ⟨hd, _⟩ := htail
        apply hN
        refine ⟨[], mid'' ++ ['\n'], ?_⟩
        show str "\n[" ++ (mid'' ++ ['\n']) = (c :: (d :: mid'')) ++ ['\n']
        rw [← hc, ← hd]
        rfl
    have hc2 : (str "\x0d\n[").isPrefixOf (c :: (mid' ++ '\n' :: '[' :: tl)) = false := by
      apply Bool.eq_false_iff.mpr
      show ¬ List.isPrefixOf ['\x0d', '\n', '['] _ = true
      intro hcon
      simp only [List.isPrefixOf, Bool.and_eq_true, beq_iff_eq] at hcon
      exact hR (List.mem_cons.mpr (Or.inl hcon.1))
    have step : sectionBlockNoM ((c :: mid') ++ '\n' :: '[' :: tl)
        = c :: sectionBlockNoM (mid' ++ '\n' :: '[' :: tl) := by
      simp only [List.cons_append, sectionBlockNoM, List.append_eq, hc1, hc2, Bool.or_self,
        Bool.false_eq_true, if_false]
    rw [step, ih tl hR' hN']

theorem attemptUpdLen_finds_key {key l : Str} (h : (attemptUpdLen key l).isSome) : key <:+: l := by
  by_cases hp : key.isPrefixOf (l.dropWhile isWs)
  · exact ((List.isPrefixOf_iff_prefix.mp hp).isInfix).trans (List.dropWhile_suffix isWs).isInfix
  · simp [attemptUpdLen, hp] at h

theorem scanUpd_finds_key {key : Str} :
    ∀ (l : Str) (atStart : Bool), (scanUpdAux key atStart l).isSome → key <:+: l := by
  intro l
  induction l with
  | nil => intro atStart h; simp [scanUpdAux] at h
  | cons c cs ih =>
    intro atStart h
    rw [scanUpdAux] at h
    cases hA : (if atStart then attemptUpdLen key (c :: cs) else none) with
    | some n =>
      have hsome : (attemptUpdLen key (c :: cs)).isSome := by
        cases atStart
        · simp at hA
        · rw [if_pos rfl] at hA
          rw [hA]
          rfl
      exact attemptUpdLen_finds_key hsome
    | none =>
      rw [hA] at h
      cases hs : scanUpdAux key (isTerm c) cs with
      | none => rw [hs] at h; simp at h
      | some p => exact List.infix_cons (ih (isTerm c) (by rw [hs]; rfl))

theorem updateConfigValue_frame {content key : Str} {v : TomlValue} {q : Option Bool}
    (h : ¬ key <:+: content) : updateConfigValue content key v q = content := by
  cases hs : scanUpdAux key true content with
  | none => simp only [updateConfigValue, hs]
  | some p => exact absurd (scanUpd_finds_key content true (by rw [hs]; rfl)) h

theorem updateConfigValueInSection_frame {content section_ key : Str} {v : TomlValue}
    {q : Option Bool} (h : ¬ key <:+: content) :
    updateConfigValueInSection content section_ key v q = content := by
  cases hf : findSubSplit (secHeader section_) content with
  | none => simp only [updateConfigValueInSection, hf]
  | some p =>
    obtain ⟨before, after⟩ := p
    have hc : content = before ++ secHeader section_ ++ after := findSubSplit_eq_append hf
    cases hs : scanUpdAux key true (sectionContentM section_ after) with
    | none => simp only [updateConfigValueInSection, hf, hs]
    | some q' =>
      exfalso
      apply h
      have h1 : key <:+: sectionContentM section_ after :=
        scanUpd_finds_key (sectionContentM section_ after) true (by rw [hs]; rfl)
      have h2 : sectionContentM section_ after <:+: content := by
        rw [hc, List.append_assoc]
        refine List.IsInfix.trans ?_ (List.suffix_append before (secHeader section_ ++ after)).isInfix
        unfold sectionContentM
        apply List.IsPrefix.isInfix
        obtain ⟨t, ht⟩ := @List.takeWhile_prefix _ after (fun c => ¬ isTerm c)
        conv_rhs => rw [← ht]
        rw [← List.append_assoc]
        exact List.prefix_append _ _
      exact h1.trans h2

/-! ## Claim C5: update on a missing key leaves the file unchanged -/

/-- C5: for every file content and key, if the key does not occur in the
content (not even as a substring), then `updateConfigValue` and
`updateConfigValueInSection` return the content byte-for-byte unchanged;
both functions are total, so no error is raised. -/
theorem C5_update_missing_key_frame :
    ∀ (content section_ key : Str) (v : TomlValue) (q : Option Bool),
      ¬ key <:+: content →
      updateConfigValue content key v q = content
      ∧ updateConfigValueInSection content section_ key v q = content :=
  fun _ _ _ _ _ h => ⟨updateConfigValue_frame h, updateConfigValueInSection_frame h⟩

/-- C5 witness: writing the absent key `moniker` into a small file with
a `[node]` section leaves it unchanged. -/
theorem C5_update_missing_key_frame_witness :
    (¬ (str "moniker") <:+: str "gas = 1\n[node]\nport = 2\n")
    ∧ updateConfigValue (str "gas = 1\n[node]\nport = 2\n") (str "moniker")
        (.strV (str "x")) none = str "gas = 1\n[node]\nport = 2\n"
    ∧ updateConfigValueInSection (str "gas = 1\n[node]\nport = 2\n") (str "node") (str "moniker")
        (.strV (str "x")) none = str "gas = 1\n[node]\nport = 2\n" :=
  ⟨by decide,
   (C5_update_missing_key_frame (str "gas = 1\n[node]\nport = 2\n") (str "node") (str "moniker")
     (.strV (str "x")) none (by decide)).1,
   (C5_update_missing_key_frame (str "gas = 1\n[node]\nport = 2\n") (str "node") (str "moniker")
     (.strV (str "x")) none (by decide)).2⟩

/-! ## Claim C6: section-scoped extraction never cross-matches -/

/-- C6: (a) on a content of shape `pre [A] mid \n[ tail` — the first
`[A]` occurring at the junction, the body `mid` free of carriage returns
and of any line starting with `[` — the extracted value is computed from
`mid` alone, so it never depends on (or returns a value from) anything
after the following section opener; (b) when the section header does not
occur in the content at all, the result is the empty string. -/
theorem C6_section_extraction_isolated :
    (∀ (pre A mid tl key : Str),
      ¬ secHeader A <:+: (pre ++ secHeader A).dropLast →
      '\x0d' ∉ mid →
      ¬ (str "\n[") <:+: (mid ++ ['\n']) →
      extractConfigValueInSection (pre ++ secHeader A ++ mid ++ '\n' :: '[' :: tl) A key
        = extractSectionBody mid key)
    ∧ (∀ (content A key : Str),
      ¬ secHeader A <:+: content →
      extractConfigValueInSection content A key = []) := by
  constructor
  · intro pre A mid tl key h0 hR hN
    have hne : secHeader A ≠ [] := by simp [secHeader]
    have hsplit : findSubSplit (secHeader A) (pre ++ secHeader A ++ (mid ++ '\n' :: '[' :: tl))
        = some (pre, mid ++ '\n' :: '[' :: tl) := findSubSplit_at_junction hne _ h0
    have hassoc : pre ++ secHeader A ++ mid ++ '\n' :: '[' :: tl
        = pre ++ secHeader A ++ (mid ++ '\n' :: '[' :: tl) := by
      rw [List.append_assoc]
    rw [hassoc]
    unfold extractConfigValueInSection
    rw [hsplit]
    show extractSectionBody (sectionBlockNoM (mid ++ '\n' :: '[' :: tl)) key
      = extractSectionBody mid key
    rw [sectionBlock_at_junction tl hR hN]
  · intro content A key h
    unfold extractConfigValueInSection
    rw [findSubSplit_none_of_not_sub h]

/-- C6 witness: with sections `[alpha]` and `[beta]` both defining `k`,
extraction from `[alpha]` returns `[alpha]`'s value and is computed from
`[alpha]`'s body alone; extraction of the absent `[gamma]` is empty. -/
theorem C6_section_extraction_isolated_witness :
    extractConfigValueInSection
        (([] : Str) ++ secHeader (str "alpha") ++ str "\nk = \"1\"" ++ '\n' :: '[' :: str "beta]\nk = \"2\"\n")
        (str "alpha") (str "k")
      = extractSectionBody (str "\nk = \"1\"") (str "k")
    ∧ extractSectionBody (str "\nk = \"1\"") (str "k") = str "1"
    ∧ extractConfigValueInSection (str "[alpha]\nk = \"1\"\n[beta]\nk = \"2\"\n") (str "gamma") (str "k") = [] :=
  ⟨C6_section_extraction_isolated.1 [] (str "alpha") (str "\nk = \"1\"") (str "beta]\nk = \"2\"\n")
     (str "k") (by decide) (by decide) (by decide),
   by decide,
   C6_section_extraction_isolated.2 (str "[alpha]\nk = \"1\"\n[beta]\nk = \"2\"\n") (str "gamma")
     (str "k") (by decide)⟩

/-! ## Claim C4: the section round-trip fails (code bug) -/

/-- C4 failing input: `updateConfigValueInSection` never rewrites
anything — its section regex carries the multiline flag, so the `$`
lookahead alternative already matches at the end of the header's line
and the lazily-matched "section" is just the header, in which the key
regex cannot match.  Writing `b` over the existing `moniker = "a"`
leaves the file unchanged and re-extraction still returns `a`. -/
theorem C4_sectionUpdate_roundtrip_fails :
    updateConfigValueInSection (str "[node]\nmoniker = \"a\"\n") (str "node") (str "moniker")
        (.strV (str "b")) none = str "[node]\nmoniker = \"a\"\n"
    ∧ extractConfigValueInSection
        (updateConfigValueInSection (str "[node]\nmoniker = \"a\"\n") (str "node") (str "moniker")
          (.strV (str "b")) none)
        (str "node") (str "moniker") = str "a"
    ∧ (str "a" : Str) ≠ str "b" := by
  refine ⟨by decide, by decide, by decide⟩

/-! ## Claim C2: a no-op type change touches no container -/

theorem writeVpnPort_isSome (fs : FS) (t : Str) (port : Int) (proto : Option Str)
    (h3 : t = str "wireguard" → fs.wireguardConfig.isSome)
    (h4 : t = str "v2ray" → fs.v2rayConfig.isSome)
    (h5 : t = str "openvpn" → fs.openvpnConfig.isSome) :
    (writeVpnPort fs t port proto).isSome := by
  by_cases h1 : t = str "wireguard"
  · obtain ⟨c, hc⟩ := Option.isSome_iff_exists.mp (h3 h1)
    simp [writeVpnPort, h1, hc]
  · by_cases h2 : t = str "v2ray"
    · obtain ⟨c, hc⟩ := Option.isSome_iff_exists.mp (h4 h2)
      simp [writeVpnPort, h2, hc, show str "v2ray" ≠ str "wireguard" from by decide]
    · by_cases h6 : t = str "openvpn"
      · obtain ⟨c, hc⟩ := Option.isSome_iff_exists.mp (h5 h6)
        simp [writeVpnPort, h6, hc, show str "openvpn" ≠ str "wireguard" from by decide,
          show str "openvpn" ≠ str "v2ray" from by decide]
      · simp [writeVpnPort, h1, h2, h6]

theorem writeVpnPort_spec {fs : FS} {t : Str} {port : Int} {proto : Option Str} {fs1 : FS}
    (h : writeVpnPort fs t port proto = some fs1) :
    fs1.mainConfig = fs.mainConfig
    ∧ (t ≠ str "wireguard" → fs1.wireguardConfig = fs.wireguardConfig)
    ∧ (t ≠ str "v2ray" → fs1.v2rayConfig = fs.v2rayConfig)
    ∧ (t ≠ str "openvpn" → fs1.openvpnConfig = fs.openvpnConfig)
    ∧ (∀ c, t = str "wireguard" → fs.wireguardConfig = some c →
        fs1.wireguardConfig = some (updateConfigValue c (str "port") (.numV port) (some true)))
    ∧ (∀ c, t = str "v2ray" → fs.v2rayConfig = some c →
        fs1.v2rayConfig = some (updateConfigValue c (str "port") (.numV port) (some false)))
    ∧ (∀ c, t = str "openvpn" → fs.openvpnConfig = some c →
        fs1.openvpnConfig = some (openvpnNoopRewrite c port proto)) := by
  by_cases h1 : t = str "wireguard"
  · rw [writeVpnPort, if_pos h1] at h
    cases hc : fs.wireguardConfig with
    | none => rw [hc] at h; cases h
    | some c =>
      rw [hc] at h
      have hfs1 := (Option.some.inj h).symm
      subst hfs1
      refine ⟨rfl, fun hn => absurd h1 hn, fun _ => rfl, fun _ => rfl, ?_, ?_, ?_⟩
      · intro c' _ hc'
        rw [← Option.some.inj hc']
      · intro c' h2 _
        exact absurd (h1.symm.trans h2) (by decide)
      · intro c' h2 _
        exact absurd (h1.symm.trans h2) (by decide)
  · by_cases h2 : t = str "v2ray"
    · rw [writeVpnPort, if_neg h1, if_pos h2] at h
      cases hc : fs.v2rayConfig with
      | none => rw [hc] at h; cases h
      | some c =>
        rw [hc] at h
        have hfs1 := (Option.some.inj h).symm
        subst hfs1
        refine ⟨rfl, fun _ => rfl, fun hn => absurd h2 hn, fun _ => rfl, ?_, ?_, ?_⟩
        · intro c' h1' _
          exact absurd (h2.symm.trans h1') (by decide)
        · intro c' _ hc'
          rw [← Option.some.inj hc']
        · intro c' h6 _
          exact absurd (h2.symm.trans h6) (by decide)
    · by_cases h6 : t = str "openvpn"
      · rw [writeVpnPort, if_neg h1, if_neg h2, if_pos h6] at h
        cases hc : fs.openvpnConfig with
        | none => rw [hc] at h; cases h
        | some c =>
          rw [hc] at h
          have hfs1 := (Option.some.inj h).symm
          subst hfs1
          refine ⟨rfl, fun _ => rfl, fun _ => rfl, fun hn => absurd h6 hn, ?_, ?_, ?_⟩
          · intro c' h1' _
            exact absurd (h6.symm.trans h1') (by decide)
          · intro c' h2' _
            exact absurd (h6.symm.trans h2') (by decide)
          · intro c' _ hc'
            rw [← Option.some.inj hc']
            rfl
      · rw [writeVpnPort, if_neg h1, if_neg h2, if_neg h6] at h
        have hfs1 := (Option.some.inj h).symm
        subst hfs1
        exact ⟨rfl, fun _ => rfl, fun _ => rfl, fun _ => rfl,
          fun c' h' => absurd h' h1, fun c' h' => absurd h' h2, fun c' h' => absurd h' h6⟩

/-- C2: when the persisted `service_type` equals the in-memory
`vpn_type`, `vpnChangeType` performs zero container lifecycle calls
(and no node-init) for every container state, returns true, leaves the
main config and the other two sub-configs untouched, and rewrites only
the current sub-config's port (plus, for openvpn, a set protocol). -/
theorem C2_noop_zero_container_actions :
    ∀ (cfg : NodeConfig) (fs : FS) (env : VEnv) (mc : Str),
      fs.mainConfig = some mc →
      extractConfigValueInSection mc (str "node") (str "service_type") = cfg.vpn_type →
      (cfg.vpn_type = str "wireguard" → fs.wireguardConfig.isSome) →
      (cfg.vpn_type = str "v2ray" → fs.v2rayConfig.isSome) →
      (cfg.vpn_type = str "openvpn" → fs.openvpnConfig.isSome) →
      (vpnChangeType cfg fs env).res = some true
      ∧ (vpnChangeType cfg fs env).events = []
      ∧ (vpnChangeType cfg fs env).cfg = cfg
      ∧ (vpnChangeType cfg fs env).fs.mainConfig = fs.mainConfig
      ∧ (cfg.vpn_type ≠ str "wireguard" →
          (vpnChangeType cfg fs env).fs.wireguardConfig = fs.wireguardConfig)
      ∧ (cfg.vpn_type ≠ str "v2ray" →
          (vpnChangeType cfg fs env).fs.v2rayConfig = fs.v2rayConfig)
      ∧ (cfg.vpn_type ≠ str "openvpn" →
          (vpnChangeType cfg fs env).fs.openvpnConfig = fs.openvpnConfig)
      ∧ (∀ c, cfg.vpn_type = str "wireguard" → fs.wireguardConfig = some c →
          (vpnChangeType cfg fs env).fs.wireguardConfig
            = some (updateConfigValue c (str "port") (.numV cfg.vpn_port) (some true)))
      ∧ (∀ c, cfg.vpn_type = str "v2ray" → fs.v2rayConfig = some c →
          (vpnChangeType cfg fs env).fs.v2rayConfig
            = some (updateConfigValue c (str "port") (.numV cfg.vpn_port) (some false)))
      ∧ (∀ c, cfg.vpn_type = str "openvpn" → fs.openvpnConfig = some c →
          (vpnChangeType cfg fs env).fs.openvpnConfig
            = some (openvpnNoopRewrite c cfg.vpn_port cfg.vpn_protocol)) := by
  intro cfg fs env mc h1 h2 h3 h4 h5
  obtain ⟨fs1, hfs1⟩ := Option.isSome_iff_exists.mp
    (writeVpnPort_isSome fs cfg.vpn_type cfg.vpn_port cfg.vpn_protocol h3 h4 h5)
  have hvct : vpnChangeType cfg fs env = ⟨some true, fs1, [], cfg⟩ := by
    simp only [vpnChangeType, h1]
    rw [if_pos h2, hfs1]
  obtain ⟨hm, hw, hv, ho, pw, pv, po⟩ := writeVpnPort_spec hfs1
  rw [hvct]
  exact ⟨rfl, rfl, rfl, hm, hw, hv, ho, pw, pv, po⟩

/-- C2 witness: a wireguard no-op change on a concrete config touches
nothing but the wireguard port. -/
theorem C2_noop_zero_container_actions_witness :
    ((⟨some (str "[node]\nservice_type = \"wireguard\"\n"), some (str "port = \"1\"\n"),
        none, none⟩ : FS).mainConfig = some (str "[node]\nservice_type = \"wireguard\"\n"))
    ∧ extractConfigValueInSection (str "[node]\nservice_type = \"wireguard\"\n") (str "node")
        (str "service_type")
      = ({ defaultNodeConfig with vpn_port := 51820 } : NodeConfig).vpn_type
    ∧ (vpnChangeType { defaultNodeConfig with vpn_port := 51820 }
        ⟨some (str "[node]\nservice_type = \"wireguard\"\n"), some (str "port = \"1\"\n"), none, none⟩
        ⟨true, true, true, id⟩).events = []
    ∧ (vpnChangeType { defaultNodeConfig with vpn_port := 51820 }
        ⟨some (str "[node]\nservice_type = \"wireguard\"\n"), some (str "port = \"1\"\n"), none, none⟩
        ⟨true, true, true, id⟩).res = some true :=
  ⟨rfl, by decide,
   (C2_noop_zero_container_actions { defaultNodeConfig with vpn_port := 51820 }
     ⟨some (str "[node]\nservice_type = \"wireguard\"\n"), some (str "port = \"1\"\n"), none, none⟩
     ⟨true, true, true, id⟩ (str "[node]\nservice_type = \"wireguard\"\n")
     rfl (by decide) (fun _ => rfl) (fun h => absurd h (by decide)) (fun h => absurd h (by decide))).2.1,
   (C2_noop_zero_container_actions { defaultNodeConfig with vpn_port := 51820 }
     ⟨some (str "[node]\nservice_type = \"wireguard\"\n"), some (str "port = \"1\"\n"), none, none⟩
     ⟨true, true, true, id⟩ (str "[node]\nservice_type = \"wireguard\"\n")
     rfl (by decide) (fun _ => rfl) (fun h => absurd h (by decide)) (fun h => absurd h (by decide))).1⟩

/-! ## Claim C3: change with missing sub-config runs node-init once,
before any container operation -/

theorem nodeInit_not_mem_reconcile (env : VEnv) :
    CEvent.nodeInit ∉ containerReconcileEvents env := by
  unfold containerReconcileEvents
  cases env.containerExists <;> cases env.containerRunning <;> simp

theorem vpnChangeType_change_eq (cfg : NodeConfig) (fs : FS) (env : VEnv) (mc : Str)
    (h1 : fs.mainConfig = some mc)
    (h2 : extractConfigValueInSection mc (str "node") (str "service_type") ≠ cfg.vpn_type) :
    vpnChangeType cfg fs env =
      changeCaseResult cfg env (createVpnConfig cfg
        { fs with mainConfig := some (updateConfigValueInSection
            (updateConfigValueInSection mc (str "node") (str "service_type")
              (.strV cfg.vpn_type) none)
            (str "handshake_dns") (str "enable")
            (.strV (if cfg.vpn_type = str "wireguard" then str "true" else str "false"))
            (some false)) } env) := by
  simp only [vpnChangeType, h1]
  rw [if_neg h2]
  rfl

theorem createVpnConfig_missing (cfg : NodeConfig) (fs1 : FS) (env : VEnv)
    (h3 : cfg.vpn_type = str "wireguard" ∨ cfg.vpn_type = str "v2ray"
      ∨ cfg.vpn_type = str "openvpn")
    (h4 : subConfigOf fs1 cfg.vpn_type = none) :
    createVpnConfig cfg fs1 env =
      if env.initSuccess then
        ⟨true, env.initEffect fs1, [.nodeInit], loadNodeConfig cfg (env.initEffect fs1)⟩
      else ⟨false, fs1, [.nodeInit], cfg⟩ := by
  rcases h3 with ht | ht | ht
  · have hwg : fs1.wireguardConfig = none := by simpa [subConfigOf, ht] using h4
    simp [createVpnConfig, ht, hwg]
  · have hv : fs1.v2rayConfig = none := by
      simpa [subConfigOf, ht, show str "v2ray" ≠ str "wireguard" from by decide] using h4
    simp [createVpnConfig, ht, hv, show str "v2ray" ≠ str "wireguard" from by decide]
  · have ho : fs1.openvpnConfig = none := by
      simpa [subConfigOf, ht, show str "openvpn" ≠ str "wireguard" from by decide,
        show str "openvpn" ≠ str "v2ray" from by decide] using h4
    simp [createVpnConfig, ht, ho, show str "openvpn" ≠ str "wireguard" from by decide,
      show str "openvpn" ≠ str "v2ray" from by decide]

/-- C3: when the persisted type differs from the requested one and the
new protocol's sub-config is absent, `vpnChangeType` emits exactly one
node-init invocation, and it precedes every container operation; when
node-init fails, the result is false and no container stop, remove or
start happens at all. -/
theorem C3_missing_subconfig_single_init :
    ∀ (cfg : NodeConfig) (fs : FS) (env : VEnv) (mc : Str),
      fs.mainConfig = some mc →
      extractConfigValueInSection mc (str "node") (str "service_type") ≠ cfg.vpn_type →
      (cfg.vpn_type = str "wireguard" ∨ cfg.vpn_type = str "v2ray"
        ∨ cfg.vpn_type = str "openvpn") →
      subConfigOf fs cfg.vpn_type = none →
      (∃ rest, (vpnChangeType cfg fs env).events = CEvent.nodeInit :: rest
        ∧ CEvent.nodeInit ∉ rest)
      ∧ (env.initSuccess = false →
          (vpnChangeType cfg fs env).res = some false
          ∧ (vpnChangeType cfg fs env).events = [CEvent.nodeInit]) := by
  intro cfg fs env mc h1 h2 h3 h4
  rw [vpnChangeType_change_eq cfg fs env mc h1 h2]
  generalize updateConfigValueInSection
    (updateConfigValueInSection mc (str "node") (str "service_type") (.strV cfg.vpn_type) none)
    (str "handshake_dns") (str "enable")
    (.strV (if cfg.vpn_type = str "wireguard" then str "true" else str "false")) (some false) = mc2
  have h4' : subConfigOf ({ fs with mainConfig := some mc2 } : FS) cfg.vpn_type = none := h4
  rw [createVpnConfig_missing cfg { fs with mainConfig := some mc2 } env h3 h4']
  cases hi : env.initSuccess
  · simp only [Bool.false_eq_true, if_false, changeCaseResult]
    exact ⟨⟨[], rfl, by simp⟩, fun _ => ⟨rfl, rfl⟩⟩
  · simp only [if_true, changeCaseResult]
    cases hW : writeVpnPort (env.initEffect { fs with mainConfig := some mc2 })
        (loadNodeConfig cfg (env.initEffect { fs with mainConfig := some mc2 })).vpn_type
        cfg.vpn_port
        (loadNodeConfig cfg (env.initEffect { fs with mainConfig := some mc2 })).vpn_protocol with
    | none =>
      refine ⟨⟨[], ?_, by simp⟩, fun hfalse => absurd hfalse (by decide)⟩
      simp only [hW]
      rfl
    | some fs2 =>
      refine ⟨⟨containerReconcileEvents env, ?_, nodeInit_not_mem_reconcile env⟩,
        fun hfalse => absurd hfalse (by decide)⟩
      simp only [hW]
      rfl

/-- C3 witness: wireguard persisted, v2ray requested with its sub-config
absent, node-init failing: result false and the only emitted event is
the single node-init invocation. -/
theorem C3_missing_subconfig_single_init_witness :
    (extractConfigValueInSection (str "[node]\nservice_type = \"wireguard\"\n") (str "node")
        (str "service_type")
      ≠ ({ defaultNodeConfig with vpn_type := str "v2ray" } : NodeConfig).vpn_type)
    ∧ (vpnChangeType { defaultNodeConfig with vpn_type := str "v2ray" }
        ⟨some (str "[node]\nservice_type = \"wireguard\"\n"), some (str "port = \"1\"\n"), none, none⟩
        ⟨true, true, false, id⟩).res = some false
    ∧ (vpnChangeType { defaultNodeConfig with vpn_type := str "v2ray" }
        ⟨some (str "[node]\nservice_type = \"wireguard\"\n"), some (str "port = \"1\"\n"), none, none⟩
        ⟨true, true, false, id⟩).events = [CEvent.nodeInit] :=
  ⟨by decide,
   ((C3_missing_subconfig_single_init { defaultNodeConfig with vpn_type := str "v2ray" }
      ⟨some (str "[node]\nservice_type = \"wireguard\"\n"), some (str "port = \"1\"\n"), none, none⟩
      ⟨true, true, false, id⟩ (str "[node]\nservice_type = \"wireguard\"\n")
      rfl (by decide) (Or.inr (Or.inl rfl)) rfl).2 rfl).1,
   ((C3_missing_subconfig_single_init { defaultNodeConfig with vpn_type := str "v2ray" }
      ⟨some (str "[node]\nservice_type = \"wireguard\"\n"), some (str "port = \"1\"\n"), none, none⟩
      ⟨true, true, false, id⟩ (str "[node]\nservice_type = \"wireguard\"\n")
      rfl (by decide) (Or.inr (Or.inl rfl)) rfl).2 rfl).2⟩

/-! ## Claim C8: remote-address seeding of node ip and ipv6 -/

theorem loadVpnConfig_node_ip (cfg : NodeConfig) (fs : FS) :
    (loadVpnConfig cfg fs).node_ip = cfg.node_ip := by
  simp only [loadVpnConfig]
  repeat' split
  all_goals rfl

theorem loadVpnConfig_node_ipv6 (cfg : NodeConfig) (fs : FS) :
    (loadVpnConfig cfg fs).node_ipv6 = cfg.node_ipv6 := by
  simp only [loadVpnConfig]
  repeat' split
  all_goals rfl

theorem applyRpc_node_ip (cfg : NodeConfig) (content : Str) :
    (applyRpc cfg content).node_ip = cfg.node_ip := by
  simp only [applyRpc]
  repeat' split
  all_goals rfl

theorem applyRpc_node_ipv6 (cfg : NodeConfig) (content : Str) :
    (applyRpc cfg content).node_ipv6 = cfg.node_ipv6 := by
  simp only [applyRpc]
  repeat' split
  all_goals rfl

theorem applyApiPort_absent (cfg : NodeConfig) (content : Str)
    (h : extractConfigValueInSection content (str "node") (str "api_port") = []) :
    applyApiPort cfg content = cfg := by
  have h1 : extractFirstListItem
      (extractConfigValueInSection content (str "node") (str "api_port")) = [] := by
    rw [h]
    rfl
  simp only [applyApiPort, h1]
  rfl

theorem applyRemoteAddrs_seeds (cfg : NodeConfig) (content : Str) (c0 : Str) (rest : List Str)
    (hc : remoteHostCandidates content = c0 :: rest)
    (hip : cfg.node_ip = [] ∨ cfg.node_ip = str "0.0.0.0") :
    (applyRemoteAddrs cfg content).node_ip = c0
    ∧ (applyRemoteAddrs cfg content).node_ipv6
      = ((c0 :: rest).find? (fun a => isIPv6Address a)).getD cfg.node_ipv6 := by
  have hcond : (decide (cfg.node_ip = []) || decide (cfg.node_ip = str "0.0.0.0")) = true := by
    rcases hip with h | h <;> simp [h]
  cases hf : (c0 :: rest).find? (fun a => isIPv6Address a) with
  | none => simp [applyRemoteAddrs, hc, hcond, hf]
  | some v6 => simp [applyRemoteAddrs, hc, hcond, hf]

theorem applyIpDefault_id (cfg : NodeConfig) (h : trimJS cfg.node_ip ≠ []) :
    applyIpDefault cfg = cfg := by
  have h2 : cfg.node_ip ≠ [] := fun hc => h (by rw [hc]; rfl)
  simp [applyIpDefault, h, h2]

/-- C8 (amended): with the main config readable, no `api_port` entry,
and `node_ip` unset or `0.0.0.0`, `loadNodeConfig` seeds `node_ip` from
the FIRST host candidate of `remote_addrs` — whatever shape it has —
and `node_ipv6` from the first candidate containing a colon and not
containing `::ffff:` (`isIPv6Address`), leaving `node_ipv6` untouched
when no such candidate exists. -/
theorem C8_remote_addr_seeding :
    ∀ (cfg : NodeConfig) (fs : FS) (content : Str) (c0 : Str) (rest : List Str),
      fs.mainConfig = some content →
      extractConfigValueInSection content (str "node") (str "api_port") = [] →
      cfg.node_ip = [] ∨ cfg.node_ip = str "0.0.0.0" →
      remoteHostCandidates content = c0 :: rest →
      trimJS c0 ≠ [] →
      (loadNodeConfig cfg fs).node_ip = c0
      ∧ (loadNodeConfig cfg fs).node_ipv6
        = ((c0 :: rest).find? (fun a => isIPv6Address a)).getD cfg.node_ipv6 := by
  intro cfg fs content c0 rest h1 h2 h3 h4 h5
  have hload : loadNodeConfig cfg fs
      = loadVpnConfig
          { applyMisc (applyRpc (applyIpDefault (applyRemoteAddrs
              (applyApiPort (applyNodeBasics cfg content) content) content)) content) content with
            vpn_port := 0, vpn_protocol := none } fs := by
    simp only [loadNodeConfig, h1]
  rw [hload, applyApiPort_absent _ _ h2]
  have h3' : (applyNodeBasics cfg content).node_ip = []
      ∨ (applyNodeBasics cfg content).node_ip = str "0.0.0.0" := h3
  obtain ⟨hip1, hip2⟩ := applyRemoteAddrs_seeds (applyNodeBasics cfg content) content c0 rest h4 h3'
  have hdef : applyIpDefault (applyRemoteAddrs (applyNodeBasics cfg content) content)
      = applyRemoteAddrs (applyNodeBasics cfg content) content := by
    apply applyIpDefault_id
    rw [hip1]
    exact h5
  constructor
  · rw [loadVpnConfig_node_ip]
    show (applyRpc (applyIpDefault (applyRemoteAddrs (applyNodeBasics cfg content) content))
      content).node_ip = c0
    rw [applyRpc_node_ip, hdef, hip1]
  · rw [loadVpnConfig_node_ipv6]
    show (applyRpc (applyIpDefault (applyRemoteAddrs (applyNodeBasics cfg content) content))
      content).node_ipv6
      = ((c0 :: rest).find? (fun a => isIPv6Address a)).getD cfg.node_ipv6
    rw [applyRpc_node_ipv6, hdef, hip2]
    rfl

/-- C8 witness: the spec's own example `remote_addrs =
["203.0.113.5", "2001:db8::1"]` yields `node_ip = 203.0.113.5` and
`node_ipv6 = 2001:db8::1`. -/
theorem C8_remote_addr_seeding_witness :
    remoteHostCandidates (str "[node]\nremote_addrs = [\"203.0.113.5\", \"2001:db8::1\"]\n")
      = [str "203.0.113.5", str "2001:db8::1"]
    ∧ (loadNodeConfig defaultNodeConfig
        ⟨some (str "[node]\nremote_addrs = [\"203.0.113.5\", \"2001:db8::1\"]\n"),
          none, none, none⟩).node_ip = str "203.0.113.5"
    ∧ (loadNodeConfig defaultNodeConfig
        ⟨some (str "[node]\nremote_addrs = [\"203.0.113.5\", \"2001:db8::1\"]\n"),
          none, none, none⟩).node_ipv6 = str "2001:db8::1" :=
  ⟨by decide,
   by
    rw [(C8_remote_addr_seeding defaultNodeConfig
      ⟨some (str "[node]\nremote_addrs = [\"203.0.113.5\", \"2001:db8::1\"]\n"), none, none, none⟩
      (str "[node]\nremote_addrs = [\"203.0.113.5\", \"2001:db8::1\"]\n")
      (str "203.0.113.5") [str "2001:db8::1"]
      rfl (by decide) (Or.inl rfl) (by decide) (by decide)).1],
   by
    rw [(C8_remote_addr_seeding defaultNodeConfig
      ⟨some (str "[node]\nremote_addrs = [\"203.0.113.5\", \"2001:db8::1\"]\n"), none, none, none⟩
      (str "[node]\nremote_addrs = [\"203.0.113.5\", \"2001:db8::1\"]\n")
      (str "203.0.113.5") [str "2001:db8::1"]
      rfl (by decide) (Or.inl rfl) (by decide) (by decide)).2]
    decide⟩

/-- C8 counterexample: the claim's "first IPv4-looking candidate" and
"IPv6-looking means not a URL scheme" are both wrong on the code: with
`remote_addrs = ["https://a:1/x", "203.0.113.5"]`, the code seeds
`node_ip` with the URL (the first candidate of any shape) instead of
`203.0.113.5`, and also stores the URL into `node_ipv6` because it
contains a colon. -/
theorem C8_remote_addr_seeding_counterexample :
    (loadNodeConfig defaultNodeConfig
      ⟨some (str "[node]\nremote_addrs = [\"https://a:1/x\", \"203.0.113.5\"]\n"),
        none, none, none⟩).node_ip = str "https://a:1/x"
    ∧ (loadNodeConfig defaultNodeConfig
      ⟨some (str "[node]\nremote_addrs = [\"https://a:1/x\", \"203.0.113.5\"]\n"),
        none, none, none⟩).node_ipv6 = str "https://a:1/x"
    ∧ (str "https://a:1/x" : Str) ≠ str "203.0.113.5"
    ∧ (defaultNodeConfig.node_ipv6 : Str) ≠ str "https://a:1/x" := by
  refine ⟨by decide, by decide, by decide, by decide⟩

/-! ## Claim C1: the walletCreate result as a function of the parsed
CLI output -/

/-- C1 counterexample: the claim counts a bare `sent...` token (not
prefixed `sentnode`) as a parsed public address, but `walletCreate`'s
parser only accepts `address: sent...` lines.  On an output holding the
bare token `sent1qqq` and a well-formed 24-word `mnemonic:` line — with
a valid passphrase and a non-existing wallet — the claim predicts the
24-word list, yet `walletCreate` returns null. -/
theorem C1_walletCreate_counterexample :
    scanTokenAux attemptBareSent false
        (stripAnsi (str "sent1qqq\nmnemonic: abandon ability able about above absent absorb abstract absurd abuse access accident account accuse achieve acid acoustic acquire across act action actor actress actual\n"))
      = some (str "sent1qqq")
    ∧ (mnemonicWordsOf (stripAnsi (str "sent1qqq\nmnemonic: abandon ability able about above absent absorb abstract absurd abuse access accident account accuse achieve acid acoustic acquire across act action actor actress actual\n"))).length = 24
    ∧ isPassphraseValid defaultNodeConfig
        ⟨fun args _ => if args.get? 1 = some (str "add")
            then some (str "sent1qqq\nmnemonic: abandon ability able about above absent absorb abstract absurd abuse access accident account accuse achieve acid acoustic acquire across act action actor actress actual\n")
            else some (str "No keys"),
          fun _ => false, false⟩ none = true
    ∧ walletExists defaultNodeConfig
        ⟨fun args _ => if args.get? 1 = some (str "add")
            then some (str "sent1qqq\nmnemonic: abandon ability able about above absent absorb abstract absurd abuse access accident account accuse achieve acid acoustic acquire across act action actor actress actual\n")
            else some (str "No keys"),
          fun _ => false, false⟩ none = Tri.no
    ∧ (walletCreate defaultNodeConfig
        ⟨fun args _ => if args.get? 1 = some (str "add")
            then some (str "sent1qqq\nmnemonic: abandon ability able about above absent absorb abstract absurd abuse access accident account accuse achieve acid acoustic acquire across act action actor actress actual\n")
            else some (str "No keys"),
          fun _ => false, false⟩ none).1 = CreateResult.nullRes
    ∧ CreateResult.nullRes
        ≠ CreateResult.words (mnemonicWordsOf (stripAnsi (str "sent1qqq\nmnemonic: abandon ability able about above absent absorb abstract absurd abuse access accident account accuse achieve acid acoustic acquire across act action actor actress actual\n"))) := by
  refine ⟨by decide, by decide, by decide, by decide, by decide, by decide⟩

/-- C1 (amended): for a valid passphrase and a non-existing wallet,
`walletCreate` is determined by the `keys add` output as follows: the
indeterminate result when the command fails or the passphrase-error
classifier matches; the 24-word mnemonic when the ANSI-stripped output
has an `e?address: sent...` public-address match and the extracted
mnemonic (the `mnemonic:` line, else the 24-word fallback scan) has
exactly 24 words; null otherwise (no `address:`-style match — a bare
`sent...` token does not count — or a mnemonic of the wrong length). -/
theorem C1_walletCreate_parse :
    ∀ (cfg : NodeConfig) (env : WEnv) (p : Option Str),
      isPassphraseValid cfg env p = true →
      walletExists cfg env p = Tri.no →
      (walletCreate cfg env p).1 =
        (match env.cmd (keysAddArgs cfg) (walletCreateStdin cfg env p) with
         | none => CreateResult.undefRes
         | some output =>
           if env.isPassErr output then CreateResult.undefRes
           else if publicAddressOf (stripAnsi output) = [] then CreateResult.nullRes
           else if (mnemonicWordsOf (stripAnsi output)).length = 24 then
             CreateResult.words (mnemonicWordsOf (stripAnsi output))
           else CreateResult.nullRes) := by
  intro cfg env p h1 h2
  simp only [walletCreate]
  rw [if_neg (fun hcon => hcon h1), h2]
  cases hc : env.cmd (keysAddArgs cfg) (walletCreateStdin cfg env p) with
  | none => rfl
  | some output =>
    by_cases hp : env.isPassErr output = true
    · simp [hp]
    · have hpf : env.isPassErr output = false := Bool.eq_false_iff.mpr hp
      simp only [hpf, Bool.false_eq_true, if_false]
      simp only [parseKeysAddOutput]
      by_cases hpub : publicAddressOf (stripAnsi output) = []
      · rw [if_neg (fun hcon => hcon hpub), if_pos hpub]
      · rw [if_pos hpub, if_neg hpub]
        by_cases hlen : (mnemonicWordsOf (stripAnsi output)).length = 24
        · simp [hpub, hlen]
        · simp [hpub, hlen]

/-- C1 witness: on a well-formed output with an `address: sent...` line
and a 24-word `mnemonic:` line, `walletCreate` returns the word list. -/
theorem C1_walletCreate_parse_witness :
    isPassphraseValid defaultNodeConfig
        ⟨fun args _ => if args.get? 1 = some (str "add")
            then some (str "address: sent1abc\nmnemonic: abandon ability able about above absent absorb abstract absurd abuse access accident account accuse achieve acid acoustic acquire across act action actor actress actual\n")
            else some (str "No keys"),
          fun _ => false, false⟩ none = true
    ∧ walletExists defaultNodeConfig
        ⟨fun args _ => if args.get? 1 = some (str "add")
            then some (str "address: sent1abc\nmnemonic: abandon ability able about above absent absorb abstract absurd abuse access accident account accuse achieve acid acoustic acquire across act action actor actress actual\n")
            else some (str "No keys"),
          fun _ => false, false⟩ none = Tri.no
    ∧ (walletCreate defaultNodeConfig
        ⟨fun args _ => if args.get? 1 = some (str "add")
            then some (str "address: sent1abc\nmnemonic: abandon ability able about above absent absorb abstract absurd abuse access accident account accuse achieve acid acoustic acquire across act action actor actress actual\n")
            else some (str "No keys"),
          fun _ => false, false⟩ none).1
      = CreateResult.words (mnemonicWordsOf (stripAnsi (str "address: sent1abc\nmnemonic: abandon ability able about above absent absorb abstract absurd abuse access accident account accuse achieve acid acoustic acquire across act action actor actress actual\n"))) :=
  ⟨by decide, by decide,
   (C1_walletCreate_parse defaultNodeConfig
      ⟨fun args _ => if args.get? 1 = some (str "add")
          then some (str "address: sent1abc\nmnemonic: abandon ability able about above absent absorb abstract absurd abuse access accident account accuse achieve acid acoustic acquire across act action actor actress actual\n")
          else some (str "No keys"),
        fun _ => false, false⟩ none (by decide) (by decide)).trans (by decide)⟩

/-! ## Claim C7: results of wallet operations on a missing required
passphrase -/

/-- C7 counterexample: with backend "file" and an `.address` file in
the key ring (a required passphrase) and a null passphrase, only
`walletExists` returns the indeterminate result; `walletUnlock`,
`walletRemove`, `walletLoadAddresses` and `walletRecover` return false
and `walletCreate` returns null — not `undefined` as the claim says. -/
theorem C7_missing_passphrase_counterexample :
    passphraseRequired { defaultNodeConfig with backend := str "file" }
      ⟨fun _ _ => none, fun _ => false, true⟩ = true
    ∧ walletUnlock { defaultNodeConfig with backend := str "file" }
        ⟨fun _ _ => none, fun _ => false, true⟩ none = false
    ∧ (walletRemove { defaultNodeConfig with backend := str "file" }
        ⟨fun _ _ => none, fun _ => false, true⟩ none).1 = Tri.no
    ∧ (walletLoadAddresses { defaultNodeConfig with backend := str "file" }
        ⟨fun _ _ => none, fun _ => false, true⟩ none).1 = Tri.no
    ∧ (walletCreate { defaultNodeConfig with backend := str "file" }
        ⟨fun _ _ => none, fun _ => false, true⟩ none).1 = CreateResult.nullRes
    ∧ (walletRecover { defaultNodeConfig with backend := str "file" }
        ⟨fun _ _ => none, fun _ => false, true⟩ (str "m") none).1 = Tri.no
    ∧ walletExists { defaultNodeConfig with backend := str "file" }
        ⟨fun _ _ => none, fun _ => false, true⟩ none = Tri.undef
    ∧ Tri.no ≠ Tri.undef
    ∧ CreateResult.nullRes ≠ CreateResult.undefRes := by
  refine ⟨by decide, by decide, by decide, by decide, by decide, by decide, by decide,
    by decide, by decide⟩

/-- C7 (amended): when a passphrase is required and the supplied one is
null or blank, `walletExists` returns the indeterminate result, while
`walletUnlock`, `walletRemove`, `walletLoadAddresses` and
`walletRecover` return the definite failure and `walletCreate` returns
null. -/
theorem C7_missing_passphrase_results :
    ∀ (cfg : NodeConfig) (env : WEnv) (p : Option Str) (m : Str),
      passphraseRequired cfg env = true →
      (p = none ∨ ∃ s, p = some s ∧ trimJS s = []) →
      walletExists cfg env p = Tri.undef
      ∧ walletUnlock cfg env p = false
      ∧ (walletRemove cfg env p).1 = Tri.no
      ∧ (walletLoadAddresses cfg env p).1 = Tri.no
      ∧ (walletCreate cfg env p).1 = CreateResult.nullRes
      ∧ (walletRecover cfg env m p).1 = Tri.no := by
  intro cfg env p m h1 h2
  have hv : isPassphraseValid cfg env p = false := by
    rcases h2 with rfl | ⟨s, rfl, hs⟩
    · simp [isPassphraseValid, h1]
    · simp [isPassphraseValid, h1, hs]
  have hnv : ¬ isPassphraseValid cfg env p = true := by
    rw [hv]
    exact fun hcon => absurd hcon (by decide)
  refine ⟨?_, ?_, ?_, ?_, ?_, ?_⟩
  · simp only [walletExists]
    rw [if_pos hnv]
  · simp only [walletUnlock]
    rw [if_pos hnv]
  · simp only [walletRemove]
    rw [if_pos hnv]
  · simp only [walletLoadAddresses]
    rw [if_pos hnv]
  · simp only [walletCreate]
    rw [if_pos hnv]
  · simp only [walletRecover]
    rw [if_pos hnv]

/-- C7 witness: applying the amended statement at a concrete "file"
backend configuration with a null passphrase. -/
theorem C7_missing_passphrase_results_witness :
    passphraseRequired { defaultNodeConfig with backend := str "file" }
      ⟨fun _ _ => none, fun _ => false, true⟩ = true
    ∧ walletExists { defaultNodeConfig with backend := str "file" }
        ⟨fun _ _ => none, fun _ => false, true⟩ none = Tri.undef
    ∧ walletUnlock { defaultNodeConfig with backend := str "file" }
        ⟨fun _ _ => none, fun _ => false, true⟩ none = false :=
  ⟨by decide,
   (C7_missing_passphrase_results { defaultNodeConfig with backend := str "file" }
     ⟨fun _ _ => none, fun _ => false, true⟩ none (str "m") (by decide) (Or.inl rfl)).1,
   (C7_missing_passphrase_results { defaultNodeConfig with backend := str "file" }
     ⟨fun _ _ => none, fun _ => false, true⟩ none (str "m") (by decide) (Or.inl rfl)).2.1⟩

/-! ## Claim C9: serialization of the remote and RPC address lists -/

theorem foldl_dedup_nodup :
    ∀ (l acc : List Str), acc.Nodup →
      (l.foldl (fun acc x => if x ∈ acc then acc else acc ++ [x]) acc).Nodup := by
  intro l
  induction l with
  | nil => intro acc h; exact h
  | cons x xs ih =>
    intro acc h
    simp only [List.foldl_cons]
    by_cases hm : x ∈ acc
    · rw [if_pos hm]
      exact ih acc h
    · rw [if_neg hm]
      refine ih _ ?_
      rw [← List.concat_eq_append]
      exact List.Nodup.concat hm h

theorem jsSetDedup_nodup (l : List Str) : (jsSetDedup l).Nodup :=
  foldl_dedup_nodup l [] List.nodup_nil

/-- C9 (amended): the remote-address list built for persistence is
always de-duplicated and, when nonempty, serialized in TOML array
syntax; the RPC address list is serialized in TOML array syntax but NOT
de-duplicated — it is exactly `getRpcAddresses`, which preserves any
duplicates present in the in-memory `rpc_addresses` string.  (Moreover
the write of both values into the main config file is a silent no-op,
see C4.) -/
theorem C9_address_list_serialization :
    ∀ (cfg : NodeConfig),
      (buildRemoteAddressesList cfg).Nodup
      ∧ (buildRemoteAddressesList cfg ≠ [] →
          formatRemoteAddresses (buildRemoteAddressesList cfg)
            = tomlArraySyntax (buildRemoteAddressesList cfg))
      ∧ (getRpcAddresses cfg ≠ [] →
          formatRpcAddresses cfg = tomlArraySyntax (getRpcAddresses cfg)) := by
  intro cfg
  refine ⟨jsSetDedup_nodup _, ?_, ?_⟩
  · intro h
    simp only [formatRemoteAddresses, tomlArraySyntax]
    rw [if_neg h]
  · intro h
    simp only [formatRpcAddresses, tomlArraySyntax]
    rw [if_neg h]

/-- C9 counterexample: a duplicated RPC address in the in-memory string
is serialized twice — the persisted RPC value is not a de-duplicated
set. -/
theorem C9_rpc_duplicates_counterexample :
    getRpcAddresses { defaultNodeConfig with rpc_addresses := str "https://a,https://a" }
      = [str "https://a", str "https://a"]
    ∧ formatRpcAddresses { defaultNodeConfig with rpc_addresses := str "https://a,https://a" }
      = str "[\"https://a\", \"https://a\"]"
    ∧ ¬ (getRpcAddresses
        { defaultNodeConfig with rpc_addresses := str "https://a,https://a" }).Nodup := by
  refine ⟨by decide, by decide, by decide⟩

/-- C9 witness: the amended statement at the default configuration. -/
theorem C9_address_list_serialization_witness :
    (buildRemoteAddressesList defaultNodeConfig).Nodup
    ∧ getRpcAddresses defaultNodeConfig ≠ []
    ∧ formatRpcAddresses defaultNodeConfig = tomlArraySyntax (getRpcAddresses defaultNodeConfig) :=
  ⟨(C9_address_list_serialization defaultNodeConfig).1,
   by decide,
   (C9_address_list_serialization defaultNodeConfig).2.2 (by decide)⟩

/-! ## Claim C10: the setVpnType invariant -/

theorem setVpnType_handshake (cfg : NodeConfig) (t : Str) :
    (setVpnType cfg t).handshake = decide (t = str "wireguard") := by
  simp only [setVpnType]
  repeat' split
  all_goals rfl

theorem setVpnType_vpn_type (cfg : NodeConfig) (t : Str) :
    (setVpnType cfg t).vpn_type = t := by
  simp only [setVpnType]
  repeat' split
  all_goals rfl

/-- C10: after `setVpnType(t)`, the handshake flag holds exactly when
`t` is wireguard; the protocol is udp for wireguard, tcp for v2ray, and
for openvpn the previous protocol is preserved unless it was unset
(undefined or empty), in which case it becomes udp; the stored type is
`t`. -/
theorem C10_setVpnType_invariant :
    ∀ (cfg : NodeConfig) (t : Str),
      ((setVpnType cfg t).handshake = true ↔ t = str "wireguard")
      ∧ (setVpnType cfg t).vpn_type = t
      ∧ (t = str "wireguard" → (setVpnType cfg t).vpn_protocol = some (str "udp"))
      ∧ (t = str "v2ray" → (setVpnType cfg t).vpn_protocol = some (str "tcp"))
      ∧ (t = str "openvpn" →
          (setVpnType cfg t).vpn_protocol
            = (if falsyProto cfg.vpn_protocol then some (str "udp") else cfg.vpn_protocol)) := by
  intro cfg t
  refine ⟨?_, setVpnType_vpn_type cfg t, ?_, ?_, ?_⟩
  · rw [setVpnType_handshake]
    exact decide_eq_true_iff
  · intro h
    subst h
    simp [setVpnType]
  · intro h
    subst h
    simp [setVpnType, show (str "v2ray" : Str) ≠ str "wireguard" from by decide]
  · intro h
    subst h
    cases hf : falsyProto cfg.vpn_protocol <;>
      simp [setVpnType, hf, show (str "openvpn" : Str) ≠ str "wireguard" from by decide,
        show (str "openvpn" : Str) ≠ str "v2ray" from by decide]

/-- C10 witness: setting wireguard on the default configuration yields
the handshake flag, the stored type and the udp protocol. -/
theorem C10_setVpnType_invariant_witness :
    (setVpnType defaultNodeConfig (str "wireguard")).vpn_protocol = some (str "udp")
    ∧ (setVpnType defaultNodeConfig (str "wireguard")).vpn_type = str "wireguard"
    ∧ ((setVpnType defaultNodeConfig (str "wireguard")).handshake = true
        ↔ (str "wireguard" : Str) = str "wireguard") :=
  ⟨(C10_setVpnType_invariant defaultNodeConfig (str "wireguard")).2.2.1 rfl,
   (C10_setVpnType_invariant defaultNodeConfig (str "wireguard")).2.1,
   (C10_setVpnType_invariant defaultNodeConfig (str "wireguard")).1⟩

end Casanode
